import Mathlib

/-!
# Books API: a verification development

A shallow embedding of `main.go` (package `main` of the Books API): the `Book`
record, the seven HTTP handlers and the route table registered in `main`.

The handlers are thin: what they compute is decided by the library calls they
make (`time.Parse`, `Time.AddDate`, `primitive.ObjectIDFromHex`, the BSON and
JSON struct codecs with the `omitempty` tags of `Book`, the `mux` router and the
MongoDB collection).  Those calls are embedded too, each as a small executable
model of the library routine, named after it.

Scope of the library models.
* `time`: the calendar arithmetic of `Date`, `absDate` and `AddDate` on the
  absolute epoch, for the UTC location; `Parse` for the one layout the program
  uses, `"2006"`.
* `bson`: documents whose keys are those of `Book`, each absent or of the type
  the struct codec writes for its field.
* `json`: encoding of a `Book` as the list of its members; decoding of a body
  that is a well-formed JSON object whose members fit their fields.
* `mongo`: the driver's calls as an interface any behaviour can implement, and
  one implementation, `healthy`, a reachable server holding the documents.
* `mux`: `Router.Match` for templates with at most one trailing variable.

Conventions.
* A Go `string` is a sequence of bytes (`GoString`).
* Go's `int`, `int64` and `uint64` are integers; the conversions at which Go
  wraps are written out (`u64`, `i64`).
* A handler is a function of the collection it talks to, the state of that
  collection and the request; it yields the response, the calls it made on the
  collection and the collection's state afterwards.
-/

namespace BooksAPI

/-! ## Go strings and machine integers -/

deriving instance DecidableEq for Except

/-- One byte of a Go string. -/
abbrev Byte := Fin 256

/-- A Go `string`: an immutable sequence of bytes. -/
abbrev GoString := List Byte

/-- The bytes of an ASCII literal. -/
def ascii (s : String) : GoString := s.toList.map (fun c => Fin.ofNat c.toNat)

/-- Conversion to `uint64`: reduction modulo `2^64`. -/
def u64 (x : Int) : Int := x % 18446744073709551616

/-- Conversion to `int64`: two's complement wrap-around. -/
def i64 (x : Int) : Int :=
  (x + 9223372036854775808) % 18446744073709551616 - 9223372036854775808

/-- Go's `/` on signed integers: the quotient truncated toward zero. -/
def goDiv (a b : Int) : Int := Int.tdiv a b

/-- Go's `%` on signed integers: the remainder has the sign of the dividend. -/
def goMod (a b : Int) : Int := Int.tmod a b

/-! ## Package `time` (the parts `GetBookByYear` and the codecs use) -/

namespace time

/-- A `time.Time` in UTC: seconds since the Unix epoch and the nanoseconds
within that second. -/
structure Time where
  unix : Int
  nsec : Int
  deriving DecidableEq, Repr

def secondsPerMinute : Int := 60
def secondsPerHour : Int := 60 * secondsPerMinute
def secondsPerDay : Int := 24 * secondsPerHour
def daysPer400Years : Int := 365 * 400 + 97
def daysPer100Years : Int := 365 * 100 + 24
def daysPer4Years : Int := 365 * 4 + 1

/-- The unsigned zero year for internal calculations. -/
def absoluteZeroYear : Int := -292277022399

/-- The year of the zero `Time`. -/
def internalYear : Int := 1

/-- The constant `(absoluteZeroYear - internalYear) * 365.2425 * secondsPerDay`. -/
def absoluteToInternal : Int := (absoluteZeroYear - internalYear) * 31556952

def internalToAbsolute : Int := -absoluteToInternal

def unixToInternal : Int :=
  (1969 * 365 + 1969 / 4 - 1969 / 100 + 1969 / 400) * secondsPerDay

def internalToUnix : Int := -unixToInternal

/-- The table `daysBefore`: `daysBefore[m]` counts the days of a non-leap year before month `m+1`. -/
def daysBefore (m : Int) : Int :=
  match m with
  | 0 => 0
  | 1 => 31
  | 2 => 31 + 28
  | 3 => 31 + 28 + 31
  | 4 => 31 + 28 + 31 + 30
  | 5 => 31 + 28 + 31 + 30 + 31
  | 6 => 31 + 28 + 31 + 30 + 31 + 30
  | 7 => 31 + 28 + 31 + 30 + 31 + 30 + 31
  | 8 => 31 + 28 + 31 + 30 + 31 + 30 + 31 + 31
  | 9 => 31 + 28 + 31 + 30 + 31 + 30 + 31 + 31 + 30
  | 10 => 31 + 28 + 31 + 30 + 31 + 30 + 31 + 31 + 30 + 31
  | 11 => 31 + 28 + 31 + 30 + 31 + 30 + 31 + 31 + 30 + 31 + 30
  | _ => 31 + 28 + 31 + 30 + 31 + 30 + 31 + 31 + 30 + 31 + 30 + 31

/-- Go's `isLeap`: `year%4 == 0 && (year%100 != 0 || year%400 == 0)`. -/
def isLeap (year : Int) : Bool :=
  goMod year 4 == 0 && (goMod year 100 != 0 || goMod year 400 == 0)

/-- Go's `norm` returns `nhi, nlo` such that `hi * base + lo == nhi * base + nlo`
and `0 <= nlo < base`. -/
def norm (hi lo base : Int) : Int × Int :=
  let (hi, lo) :=
    if lo < 0 then
      let n := goDiv (-lo - 1) base + 1
      (hi - n, lo + n * base)
    else (hi, lo)
  if lo ≥ base then
    let n := goDiv lo base
    (hi + n, lo - n * base)
  else (hi, lo)

/-- Go's `daysSinceEpoch` takes a year and returns the number of days from the
absolute epoch to the start of that year. -/
def daysSinceEpoch (year : Int) : Int :=
  let y := u64 (year - absoluteZeroYear)
  -- Add in days from 400-year cycles.
  let n := y / 400
  let y := y - 400 * n
  let d := daysPer400Years * n
  -- Add in 100-year cycles.
  let n := y / 100
  let y := y - 100 * n
  let d := d + daysPer100Years * n
  -- Add in 4-year cycles.
  let n := y / 4
  let y := y - 4 * n
  let d := d + daysPer4Years * n
  -- Add in non-leap years.
  let n := y
  d + 365 * n

/-- Go's `time.Date(year, month, day, hour, min, sec, nsec, time.UTC)`. -/
def Date (year month day hour min sec nsec : Int) : Time :=
  -- Normalize month, overflowing into year.
  let m := month - 1
  let (year, m) := norm year m 12
  let month := m + 1
  -- Normalize nsec, sec, min, hour, overflowing into day.
  let (sec, nsec) := norm sec nsec 1000000000
  let (min, sec) := norm min sec 60
  let (hour, min) := norm hour min 60
  let (day, hour) := norm day hour 24
  -- Compute days since the absolute epoch.
  let d := daysSinceEpoch year
  -- Add in days before this month.
  let d := d + u64 (daysBefore (month - 1))
  let d := if isLeap year && decide (month ≥ 3) then d + 1 else d
  -- Add in days before today.
  let d := u64 (d + u64 (day - 1))
  -- Add in time elapsed today.
  let abs := d * secondsPerDay
  let abs := u64 (abs + u64 (hour * secondsPerHour + min * secondsPerMinute + sec))
  let unix := i64 (i64 abs + (absoluteToInternal + internalToUnix))
  { unix := unix, nsec := nsec }

/-- Go's `Time.abs`: the time as an absolute time, seconds since the absolute
epoch (the location is UTC). -/
def Time.abs (t : Time) : Int :=
  u64 (t.unix + (unixToInternal + internalToAbsolute))

/-- Go's `absDate` with `full = true`: year, month, day and day of the year of an
absolute time. -/
def absDate (abs : Int) : Int × Int × Int × Int :=
  -- Split into time and day.
  let d := abs / secondsPerDay
  -- Account for 400 year cycles.
  let n := d / daysPer400Years
  let y := 400 * n
  let d := d - daysPer400Years * n
  -- Cut off 100-year cycles.
  let n := d / daysPer100Years
  let n := n - n / 4
  let y := y + 100 * n
  let d := d - daysPer100Years * n
  -- Cut off 4-year cycles.
  let n := d / daysPer4Years
  let y := y + 4 * n
  let d := d - daysPer4Years * n
  -- Cut off years within a 4-year cycle.
  let n := d / 365
  let n := n - n / 4
  let y := y + n
  let d := d - 365 * n
  let year := i64 y + absoluteZeroYear
  let yday := d
  let day := yday
  if isLeap year && decide (day = 31 + 29 - 1) then
    -- Leap day.
    (year, 2, 29, yday)
  else
    -- After leap day; pretend it wasn't there.
    let day := if isLeap year && decide (day > 31 + 29 - 1) then day - 1 else day
    -- Estimate month on assumption that every month has 31 days.
    let month := day / 31
    let endDay := daysBefore (month + 1)
    let (month, begin) :=
      if day ≥ endDay then (month + 1, endDay) else (month, daysBefore month)
    (year, month + 1, day - begin + 1, yday)

/-- Go's `absClock`: hour, minute and second within the day of an absolute time. -/
def absClock (abs : Int) : Int × Int × Int :=
  let sec := abs % secondsPerDay
  let hour := sec / secondsPerHour
  let sec := sec - hour * secondsPerHour
  let min := sec / secondsPerMinute
  let sec := sec - min * secondsPerMinute
  (hour, min, sec)

/-- Go's `Time.Year`. -/
def Time.Year (t : Time) : Int := (absDate t.abs).1

/-- Go's `Time.AddDate(years, months, days)`. -/
def Time.AddDate (t : Time) (years months days : Int) : Time :=
  let (year, month, day, _) := absDate t.abs
  let (hour, min, sec) := absClock t.abs
  Date (year + years) (month + months) (day + days) hour min sec t.nsec

/-- Go's `Time.IsZero`: whether the time is January 1, year 1, 00:00:00 UTC. -/
def Time.IsZero (t : Time) : Bool :=
  t.unix + unixToInternal == 0 && t.nsec == 0

/-- The zero value of `time.Time`. -/
def Time.zero : Time := { unix := internalToUnix, nsec := 0 }

/-- Go's `time.Unix(sec, nsec)`. -/
def Unix (sec nsec : Int) : Time :=
  if nsec < 0 ∨ nsec ≥ 1000000000 then
    let n := goDiv nsec 1000000000
    let sec := sec + n
    let nsec := nsec - n * 1000000000
    if nsec < 0 then { unix := sec - 1, nsec := nsec + 1000000000 }
    else { unix := sec, nsec := nsec }
  else { unix := sec, nsec := nsec }

/-- Go's `time.UnixMilli(msec)`. -/
def UnixMilli (msec : Int) : Time :=
  Unix (goDiv msec 1000) (goMod msec 1000 * 1000000)

/-- Go's `isDigit` reports whether `s[i]` is in range and is a decimal digit. -/
def isDigit (s : GoString) (i : Nat) : Bool :=
  match s.get? i with
  | none => false
  | some c => decide (48 ≤ c.val) && decide (c.val ≤ 57)

/-- Go's `leadingInt` consumes the leading `[0-9]*` from `s`, continuing from the
value `x` read so far; `none` is `errLeadingInt` (overflow). -/
def leadingInt : GoString → Nat → Option (Nat × GoString)
  | [], x => some (x, [])
  | c :: s, x =>
    if c.val < 48 ∨ c.val > 57 then some (x, c :: s)
    else if x > 9223372036854775808 / 10 then none
    else
      let x := x * 10 + c.val - 48
      if x > 9223372036854775808 then none else leadingInt s x

/-- Go's `atoi`: a signed decimal integer filling the whole of `s`; `none` is
`errAtoi`. -/
def atoi (s : GoString) : Option Int :=
  let (neg, s) :=
    match s with
    | c :: rest => if c.val = 45 ∨ c.val = 43 then (decide (c.val = 45), rest) else (false, s)
    | [] => (false, s)
  match leadingInt s 0 with
  | none => none
  | some (q, rem) =>
    if rem.length > 0 then none
    else
      let x := i64 q
      some (if neg then -x else x)

/-- Why `time.Parse` failed. -/
inductive ParseError where
  | bad
  | atoi
  | extraText
  deriving DecidableEq, Repr

/-- Go's `time.Parse("2006", value)`: the layout is the single chunk `stdLongYear`,
so the value is a four-digit year and nothing else; month and day default to
January 1 and the location to UTC. -/
def Parse (value : GoString) : Except ParseError Time :=
  if value.length < 4 ∨ ¬ isDigit value 0 then .error .bad
  else
    let p := value.take 4
    let value := value.drop 4
    match atoi p with
    | none => .error .atoi
    | some year =>
      if value.length ≠ 0 then .error .extraText
      else .ok (Date year 1 1 0 0 0 0)

end time

/-! ## Package `encoding/hex` and `bson/primitive`: object identifiers -/

namespace hex

/-- Go's `fromHexChar` converts a hex character into its value. -/
def fromHexChar (c : Byte) : Option Nat :=
  if 48 ≤ c.val ∧ c.val ≤ 57 then some (c.val - 48)
  else if 97 ≤ c.val ∧ c.val ≤ 102 then some (c.val - 97 + 10)
  else if 65 ≤ c.val ∧ c.val ≤ 70 then some (c.val - 65 + 10)
  else none

/-- Go's `hex.DecodeString`: the bytes a hexadecimal string stands for; `none` when
a character is not hexadecimal or the length is odd. -/
def DecodeString : GoString → Option (List Byte)
  | [] => some []
  | [_] => none
  | p :: q :: rest =>
    match fromHexChar p, fromHexChar q with
    | some a, some b =>
      match DecodeString rest with
      | some bs => some (Fin.ofNat (a * 16 + b) :: bs)
      | none => none
    | _, _ => none

end hex

namespace primitive

/-- Go's `primitive.ObjectID`, a `[12]byte`. -/
structure ObjectID where
  bytes : List Byte
  size : bytes.length = 12
  deriving DecidableEq, Repr

/-- Go's `primitive.NilObjectID`, the zero value of `ObjectID`. -/
def NilObjectID : ObjectID := ⟨List.replicate 12 0, by simp⟩

/-- Go's `ObjectID.IsZero`. -/
def ObjectID.IsZero (id : ObjectID) : Bool := decide (id = NilObjectID)

/-- Go's `primitive.ErrInvalidHex` or the error of the hexadecimal decoder. -/
inductive HexError where
  | invalidHex
  deriving DecidableEq, Repr

/-- Go's `primitive.ObjectIDFromHex`: the identifier and the error, as Go returns
them; on an error the identifier is `NilObjectID`. -/
def ObjectIDFromHex (s : GoString) : ObjectID × Option HexError :=
  match hex.DecodeString s with
  | none => (NilObjectID, some .invalidHex)
  | some b =>
    if h : b.length = 12 then (⟨b, h⟩, none) else (NilObjectID, some .invalidHex)

end primitive

open primitive (ObjectID NilObjectID ObjectIDFromHex)
open time (Time)

/-! ## The `Book` record and its two codecs -/

/-- Book structure (`main.go`, `type Book struct`).  Every field carries the
tags `json:"...,omitempty"` and `bson:"...,omitempty"`; the keys are `_id`,
`title`, `author`, `isbn` and `released`. -/
structure Book where
  ID : ObjectID
  Title : GoString
  Author : GoString
  ISBN : GoString
  Released : Time
  deriving DecidableEq, Repr

/-- The zero value of `Book` (`var book Book`). -/
def Book.zero : Book :=
  { ID := NilObjectID, Title := [], Author := [], ISBN := [], Released := Time.zero }

namespace bson

/-- A BSON document with the keys of `Book`: each key is absent or holds a
value of the BSON type its field is written as (`released` a DateTime, in
milliseconds since the Unix epoch). -/
structure Document where
  _id : Option ObjectID
  title : Option GoString
  author : Option GoString
  isbn : Option GoString
  released : Option Int
  deriving DecidableEq, Repr

/-- The empty document. -/
def Document.empty : Document :=
  { _id := none, title := none, author := none, isbn := none, released := none }

/-- Go's `primitive.NewDateTimeFromTime`: `t.Unix()*1e3 + int64(t.Nanosecond())/1e6`. -/
def NewDateTimeFromTime (t : Time) : Int :=
  i64 (t.unix * 1000 + goDiv t.nsec 1000000)

/-- Go's `DateTime.Time`: `time.Unix(int64(d)/1000, int64(d)%1000*1000000)`, in UTC. -/
def DateTimeToTime (d : Int) : Time :=
  time.Unix (goDiv d 1000) (goMod d 1000 * 1000000)

/-- Go's `bson.Marshal` of a `Book`.  With `omitempty` the struct codec leaves out a
field whose value is empty: a value with an `IsZero` method (`ObjectID`,
`time.Time`) is empty when `IsZero` holds, a string when its length is 0. -/
def Marshal (b : Book) : Document :=
  { _id := if b.ID.IsZero then none else some b.ID
    title := if b.Title.length = 0 then none else some b.Title
    author := if b.Author.length = 0 then none else some b.Author
    isbn := if b.ISBN.length = 0 then none else some b.ISBN
    released := if b.Released.IsZero then none else some (NewDateTimeFromTime b.Released) }

/-- Decoding a document into a zero `Book` (`cursor.Decode(&book)`,
`SingleResult.Decode(&book)`): a key that is present sets its field, a field
whose key is absent keeps its zero value. -/
def Unmarshal (d : Document) : Book :=
  { ID := d._id.getD NilObjectID
    Title := d.title.getD []
    Author := d.author.getD []
    ISBN := d.isbn.getD []
    Released := match d.released with
      | some ms => DateTimeToTime ms
      | none => Time.zero }

/-- The filters the list handlers build as `bson.M` literals. -/
inductive M where
  /-- Go's `bson.M{}`. -/
  | empty
  /-- Go's `bson.M{"author": author}`. -/
  | author (author : GoString)
  /-- Go's `bson.M{"released": bson.M{"$gte": startDate, "$lt": endDate}}`, the two
  times written as DateTime values. -/
  | released (gte lt : Int)
  deriving DecidableEq, Repr

end bson

open bson (Document)

namespace json

/-- A value in an encoded object. -/
inductive Value where
  /-- A JSON string. -/
  | string (s : GoString)
  /-- An `ObjectID`, written by its `MarshalJSON` as a hexadecimal string. -/
  | objectID (id : ObjectID)
  /-- A `time.Time`, written by its `MarshalJSON` as an RFC 3339 string. -/
  | time (t : Time)
  /-- A JSON number. -/
  | number (n : Int)
  /-- JSON `null`. -/
  | null
  deriving DecidableEq, Repr

/-- An encoded JSON object: its members in order. -/
abbrev Object := List (String × Value)

/-- The kinds of Go value the fields of `Book` have, as `reflect` sees them. -/
inductive Kind where
  | array (len : Nat)
  | string (s : GoString)
  | struct
  deriving DecidableEq, Repr

/-- Go's `isEmptyValue` of `encoding/json`, which decides `omitempty`: arrays and
strings are empty when their length is 0; a struct is never empty. -/
def isEmptyValue : Kind → Bool
  | .array len => len == 0
  | .string s => s.length == 0
  | .struct => false

/-- One struct field with `omitempty`: no member when the value is empty. -/
def field (key : String) (k : Kind) (v : Value) : Object :=
  if isEmptyValue k then [] else [(key, v)]

/-- Go's `Time.MarshalJSON` fails for a year outside of the range [0,9999]. -/
def timeMarshalOK (t : Time) : Bool :=
  decide (0 ≤ t.Year) && decide (t.Year ≤ 9999)

/-- Go's `json.Marshal` of a `Book`: `none` when a field's `MarshalJSON` fails. -/
def MarshalBook (b : Book) : Option Object :=
  if timeMarshalOK b.Released then
    some (field "_id" (.array b.ID.bytes.length) (.objectID b.ID)
      ++ field "title" (.string b.Title) (.string b.Title)
      ++ field "author" (.string b.Author) (.string b.Author)
      ++ field "isbn" (.string b.ISBN) (.string b.ISBN)
      ++ field "released" .struct (.time b.Released))
  else none

/-- An element in front of the elements after it, when neither failed. -/
def consElement (o : Option Object) (os : Option (List Object)) : Option (List Object) :=
  match o, os with
  | some o, some os => some (o :: os)
  | _, _ => none

/-- Go's `json.Marshal` of a `[]Book`: the elements in order; it fails when the
encoding of an element fails. -/
def MarshalBooks : List Book → Option (List Object)
  | [] => some []
  | b :: bs => consElement (MarshalBook b) (MarshalBooks bs)

/-- One member of a request body, after JSON parsing and after the decoder has
resolved the key against the `json` tags of `Book`: a key of `Book` with a value
its field accepts, or a member the decoder skips. -/
inductive Member where
  | _id (id : ObjectID)
  | title (s : GoString)
  | author (s : GoString)
  | isbn (s : GoString)
  | released (t : Time)
  | unknown
  deriving DecidableEq, Repr

/-- A request body that is a well-formed JSON object: its members in order. -/
abbrev Body := List Member

/-- Go's `json.NewDecoder(request.Body).Decode(&book)`: each member in turn is stored
in its field; a later member for the same key overwrites an earlier one. -/
def Decode (book : Book) : Body → Book
  | [] => book
  | ._id id :: ms => Decode { book with ID := id } ms
  | .title s :: ms => Decode { book with Title := s } ms
  | .author s :: ms => Decode { book with Author := s } ms
  | .isbn s :: ms => Decode { book with ISBN := s } ms
  | .released t :: ms => Decode { book with Released := t } ms
  | .unknown :: ms => Decode book ms

end json

/-! ## The MongoDB collection, as the handlers see it -/

namespace mongo

/-- A failure reported by the driver (`err != nil`). -/
inductive Error where
  /-- Go's `mongo.ErrNoDocuments`. -/
  | noDocuments
  /-- A write error of the server, by code. -/
  | write (code : Nat)
  /-- Any other failure: a timeout, the network, the driver. -/
  | other (text : String)
  deriving DecidableEq, Repr

/-- Go's `mongo.InsertOneResult`. -/
structure InsertOneResult where
  InsertedID : ObjectID
  deriving DecidableEq, Repr

/-- Go's `mongo.UpdateResult` (no upsert is ever requested, so `UpsertedID` is nil). -/
structure UpdateResult where
  MatchedCount : Int
  ModifiedCount : Int
  UpsertedCount : Int
  deriving DecidableEq, Repr

/-- Go's `mongo.DeleteResult`. -/
structure DeleteResult where
  DeletedCount : Int
  deriving DecidableEq, Repr

/-- A `mongo.Cursor` as the loop `for cursor.Next(ctx)` consumes it: the
documents `Next` delivers before it returns false, and what `cursor.Err()`
reports after the loop. -/
structure Cursor where
  docs : List Document
  err : Option Error
  deriving DecidableEq, Repr

/-- The operations of `*mongo.Collection` the handlers call, over a collection
whose state has type `σ`: each yields a result or a failure, and the writing
ones the state afterwards. -/
structure Collection (σ : Type) where
  InsertOne : σ → Document → σ × Except Error InsertOneResult
  Find : σ → bson.M → Except Error Cursor
  FindOne : σ → Document → Except Error Document
  ReplaceOne : σ → Document → Document → σ × Except Error UpdateResult
  DeleteOne : σ → Document → σ × Except Error DeleteResult

/-- A call on the collection, with the arguments the handler passed. -/
inductive Call where
  | InsertOne (document : Document)
  | Find (filter : bson.M)
  | FindOne (filter : Document)
  | ReplaceOne (filter replacement : Document)
  | DeleteOne (filter : Document)
  deriving DecidableEq, Repr

end mongo

open mongo (Collection Call)

/-! ## Requests and responses -/

/-- What a handler reads of `*http.Request`: the route variables `mux.Vars`
returns and the body. -/
structure Request where
  vars : List (String × GoString)
  body : json.Body
  deriving DecidableEq, Repr

/-- The lookup `params[key]` in the map `mux.Vars(request)`; a missing key gives
the empty string. -/
def Request.param (request : Request) (key : String) : GoString :=
  (request.vars.lookup key).getD []

/-- What a handler wrote as the body of the response. -/
inductive ResponseBody where
  /-- Go's `response.Write([]byte(text))`. -/
  | raw (text : String)
  /-- Go's `Encode` of a struct. -/
  | object (o : json.Object)
  /-- Go's `Encode` of a non-nil slice of books. -/
  | array (os : List json.Object)
  /-- Go's `Encode` of a nil slice: the JSON text `null`. -/
  | null
  /-- Nothing: `Encode` failed before writing. -/
  | nothing
  deriving DecidableEq, Repr

/-- The response: the status code (200 unless `WriteHeader` was called) and the
body.  Every handler sets the header `content-type: application/json` first. -/
structure Response where
  status : Nat
  body : ResponseBody
  deriving DecidableEq, Repr

/-- The outcome of running a handler. -/
structure Outcome (σ : Type) where
  response : Response
  calls : List Call
  state : σ

def StatusOK : Nat := 200
def StatusBadRequest : Nat := 400
def StatusNotFound : Nat := 404
def StatusMethodNotAllowed : Nat := 405
def StatusInternalServerError : Nat := 500

/-- Go's `json.NewEncoder(response).Encode(book)`. -/
def encodeBook (book : Book) : Response :=
  match json.MarshalBook book with
  | some o => ⟨StatusOK, .object o⟩
  | none => ⟨StatusOK, .nothing⟩

/-- Go's `json.NewEncoder(response).Encode(books)` for `var books []Book` filled by
`append`: the slice is nil exactly when nothing was appended. -/
def encodeBooks (books : List Book) : Response :=
  match books with
  | [] => ⟨StatusOK, .null⟩
  | _ :: _ =>
    match json.MarshalBooks books with
    | some os => ⟨StatusOK, .array os⟩
    | none => ⟨StatusOK, .nothing⟩

/-- Go's `json.NewEncoder(response).Encode(result)` for a `*mongo.InsertOneResult`. -/
def encodeInsertOneResult (r : mongo.InsertOneResult) : Response :=
  ⟨StatusOK, .object [("InsertedID", .objectID r.InsertedID)]⟩

/-- Go's `json.NewEncoder(response).Encode(result)` for a `*mongo.UpdateResult`. -/
def encodeUpdateResult (r : mongo.UpdateResult) : Response :=
  ⟨StatusOK, .object [("MatchedCount", .number r.MatchedCount),
    ("ModifiedCount", .number r.ModifiedCount),
    ("UpsertedCount", .number r.UpsertedCount), ("UpsertedID", .null)]⟩

/-- Go's `json.NewEncoder(response).Encode(result)` for a `*mongo.DeleteResult`. -/
def encodeDeleteResult (r : mongo.DeleteResult) : Response :=
  ⟨StatusOK, .object [("DeletedCount", .number r.DeletedCount)]⟩

/-- Go's `response.WriteHeader(status)` followed by `response.Write([]byte(text))`. -/
def writeError (status : Nat) (text : String) : Response :=
  ⟨status, .raw text⟩

/-- The loop `for cursor.Next(ctx) { var book Book; cursor.Decode(&book);
books = append(books, book) }`. -/
def decodeAll (docs : List Document) : List Book :=
  docs.map bson.Unmarshal

/-! ## The handlers of `main.go` -/

section Handlers

variable {σ : Type}

/-- CreateBookEndpoint creates a new book. -/
def CreateBook (collection : Collection σ) (s : σ) (request : Request) : Outcome σ :=
  let book := json.Decode Book.zero request.body
  let document := bson.Marshal book
  match collection.InsertOne s document with
  | (s, .error _) =>
    ⟨writeError StatusInternalServerError "\x7b\"message\": \"Error creating book\"\x7d",
      [.InsertOne document], s⟩
  | (s, .ok result) => ⟨encodeInsertOneResult result, [.InsertOne document], s⟩

/-- GetAllBooksEndpoint retrieves all books. -/
def GetAllBooks (collection : Collection σ) (s : σ) (_request : Request) : Outcome σ :=
  match collection.Find s .empty with
  | .error _ =>
    ⟨writeError StatusInternalServerError "\x7b\"message\": \"Error fetching books\"\x7d",
      [.Find .empty], s⟩
  | .ok cursor =>
    let books := decodeAll cursor.docs
    match cursor.err with
    | some _ =>
      ⟨writeError StatusInternalServerError
        "\x7b\"message\": \"Error iterating through books\"\x7d", [.Find .empty], s⟩
    | none => ⟨encodeBooks books, [.Find .empty], s⟩

/-- GetBookByYearEndpoint retrieves books by a specific year of release. -/
def GetBookByYear (collection : Collection σ) (s : σ) (request : Request) : Outcome σ :=
  let year := request.param "year"
  match time.Parse year with
  | .error _ =>
    ⟨writeError StatusBadRequest
      "\x7b\"message\": \"Invalid year format. Please provide year in YYYY format\"\x7d",
      [], s⟩
  | .ok parsedYear =>
    let startDate := parsedYear
    let endDate := parsedYear.AddDate 1 0 0
    let filter := bson.M.released (bson.NewDateTimeFromTime startDate)
      (bson.NewDateTimeFromTime endDate)
    match collection.Find s filter with
    | .error _ =>
      ⟨writeError StatusInternalServerError
        "\x7b\"message\": \"Error fetching books by year\"\x7d", [.Find filter], s⟩
    | .ok cursor =>
      let books := decodeAll cursor.docs
      match cursor.err with
      | some _ =>
        ⟨writeError StatusInternalServerError
          "\x7b\"message\": \"Error iterating through books by year\"\x7d", [.Find filter], s⟩
      | none => ⟨encodeBooks books, [.Find filter], s⟩

/-- Get Book name by author. -/
def GetBookByAuthor (collection : Collection σ) (s : σ) (request : Request) : Outcome σ :=
  let author := request.param "author"
  let filter := bson.M.author author
  match collection.Find s filter with
  | .error _ =>
    ⟨writeError StatusInternalServerError
      "\x7b\"message\": \"Error fetching books by author\"\x7d", [.Find filter], s⟩
  | .ok cursor =>
    let books := decodeAll cursor.docs
    match cursor.err with
    | some _ =>
      ⟨writeError StatusInternalServerError
        "\x7b\"message\": \"Error iterating through books by author\"\x7d", [.Find filter], s⟩
    | none => ⟨encodeBooks books, [.Find filter], s⟩

/-- GetBookEndpoint retrieves a single book. -/
def GetBook (collection : Collection σ) (s : σ) (request : Request) : Outcome σ :=
  let id := (ObjectIDFromHex (request.param "id")).1
  let filter := bson.Marshal { Book.zero with ID := id }
  match collection.FindOne s filter with
  | .error _ =>
    ⟨writeError StatusInternalServerError "\x7b\"message\": \"Error fetching book\"\x7d",
      [.FindOne filter], s⟩
  | .ok document => ⟨encodeBook (bson.Unmarshal document), [.FindOne filter], s⟩

/-- UpdateBookEndpoint updates a book. -/
def UpdateBook (collection : Collection σ) (s : σ) (request : Request) : Outcome σ :=
  let id := (ObjectIDFromHex (request.param "id")).1
  let book := json.Decode Book.zero request.body
  let filter := bson.Marshal { Book.zero with ID := id }
  let replacement := bson.Marshal book
  match collection.ReplaceOne s filter replacement with
  | (s, .error _) =>
    ⟨writeError StatusInternalServerError "\x7b\"message\": \"Error updating book\"\x7d",
      [.ReplaceOne filter replacement], s⟩
  | (s, .ok result) => ⟨encodeUpdateResult result, [.ReplaceOne filter replacement], s⟩

/-- DeleteBookEndpoint deletes a book. -/
def DeleteBook (collection : Collection σ) (s : σ) (request : Request) : Outcome σ :=
  let id := (ObjectIDFromHex (request.param "id")).1
  let filter := bson.Marshal { Book.zero with ID := id }
  match collection.DeleteOne s filter with
  | (s, .error _) =>
    ⟨writeError StatusInternalServerError "\x7b\"message\": \"Error deleting book\"\x7d",
      [.DeleteOne filter], s⟩
  | (s, .ok result) => ⟨encodeDeleteResult result, [.DeleteOne filter], s⟩

end Handlers

/-! ## A healthy MongoDB collection

The behaviour of a reachable server holding the collection, for documents with
the keys of `Book`: the reference against which the claims about stored books
are stated. -/

namespace mongo

/-- The collection: its documents in natural order, and how many identifiers
the driver has generated so far. -/
structure Memory where
  docs : List Document
  generated : Nat
  deriving DecidableEq, Repr

/-- The identifier the driver generates for a document inserted without `_id`
(`primitive.NewObjectID`), here the `n`-th one: `n` written in 12 bytes. -/
def NewObjectID (n : Nat) : ObjectID :=
  ⟨(List.range 12).map (fun i => Fin.ofNat (n / 256 ^ (11 - i))), by simp⟩

/-- A filter document used as a query by example: every key present in the
filter must be present in the document with an equal value. -/
def matchesDocument (filter d : Document) : Bool :=
  (filter._id.isNone || d._id == filter._id)
    && (filter.title.isNone || d.title == filter.title)
    && (filter.author.isNone || d.author == filter.author)
    && (filter.isbn.isNone || d.isbn == filter.isbn)
    && (filter.released.isNone || d.released == filter.released)

/-- The `bson.M` filters of the list handlers.  A range on `released` selects
the documents that have a `released` date within it; a document without the key
is not selected. -/
def matchesM (filter : bson.M) (d : Document) : Bool :=
  match filter with
  | .empty => true
  | .author a => d.author == some a
  | .released gte lt =>
    match d.released with
    | some t => decide (gte ≤ t) && decide (t < lt)
    | none => false

/-- Replace the first document the predicate selects. -/
def replaceFirst (p : Document → Bool) (new : Document → Document) :
    List Document → List Document
  | [] => []
  | d :: ds => if p d then new d :: ds else d :: replaceFirst p new ds

/-- The operations on a healthy collection. -/
def healthy : Collection Memory where
  InsertOne s document :=
    let (id, s) :=
      match document._id with
      | some id => (id, s)
      | none => (NewObjectID (s.generated + 1), { s with generated := s.generated + 1 })
    if s.docs.any (fun d => d._id == some id) then
      -- E11000 duplicate key error
      (s, .error (.write 11000))
    else
      ({ s with docs := s.docs ++ [{ document with _id := some id }] }, .ok ⟨id⟩)
  Find s filter := .ok ⟨s.docs.filter (matchesM filter), none⟩
  FindOne s filter :=
    match s.docs.find? (matchesDocument filter) with
    | some d => .ok d
    | none => .error .noDocuments
  ReplaceOne s filter replacement :=
    match s.docs.find? (matchesDocument filter) with
    | none => (s, .ok ⟨0, 0, 0⟩)
    | some d =>
      if replacement._id.isSome && replacement._id != d._id then
        -- the immutable field `_id` would be altered
        (s, .error (.write 66))
      else
        let new : Document := { replacement with _id := d._id }
        ({ s with docs := replaceFirst (matchesDocument filter) (fun _ => new) s.docs },
          .ok ⟨1, if new = d then 0 else 1, 0⟩)
  DeleteOne s filter :=
    match s.docs.find? (matchesDocument filter) with
    | none => (s, .ok ⟨0⟩)
    | some _ => ({ s with docs := s.docs.eraseP (matchesDocument filter) }, .ok ⟨1⟩)

end mongo

/-! ## The router (`gorilla/mux`) and the route table of `main` -/

namespace mux

/-- A path template of the shape all routes of `main` have: literal text,
then at most one variable `{name}` that ends the template.  The template
`/books/{id}` compiles to the regular expression `^/books/(?P<v0>[^/]+)$`. -/
structure Template where
  literal : GoString
  param : Option String
  deriving DecidableEq, Repr

/-- Match a path against a template: the variables captured, or `none`.  A
variable captures one or more bytes other than `/`. -/
def Template.captures (t : Template) (path : GoString) : Option (List (String × GoString)) :=
  match t.param with
  | none => if path = t.literal then some [] else none
  | some name =>
    if t.literal.isPrefixOf path then
      let v := path.drop t.literal.length
      if v.length > 0 ∧ v.all (fun b => b.val != 47) then some [(name, v)] else none
    else none

/-- A route: `router.HandleFunc(template, handler).Methods(method)`. -/
structure Route (α : Type) where
  template : Template
  method : String
  handler : α

/-- The result of `Router.Match`. -/
inductive RouteMatch (α : Type) where
  /-- A route matched: its handler and the variables of the path. -/
  | found (handler : α) (vars : List (String × GoString))
  /-- No route matched, and some route matched all but the method
  (`ErrMethodMismatch`). -/
  | methodMismatch
  /-- No route matched (`ErrNotFound`). -/
  | notFound
  deriving DecidableEq, Repr

/-- Go's `Router.Match`: the routes are tried in the order they were registered and
the first that matches path and method wins; `mismatch` records whether an
earlier route matched the path but not the method. -/
def Match {α : Type} (routes : List (Route α)) (method : String) (path : GoString)
    (mismatch : Bool) : RouteMatch α :=
  match routes with
  | [] => if mismatch then .methodMismatch else .notFound
  | r :: rest =>
    match r.template.captures path with
    | none => Match rest method path mismatch
    | some vars =>
      if r.method = method then .found r.handler vars
      else Match rest method path true

end mux

/-- The handlers registered in `main`. -/
inductive Handler where
  | CreateBook
  | GetBook
  | GetAllBooks
  | UpdateBook
  | DeleteBook
  | GetBookByAuthor
  | GetBookByYear
  deriving DecidableEq, Repr

/-- The route table of `main`, in the order of the `router.HandleFunc` calls. -/
def router : List (mux.Route Handler) :=
  [ ⟨⟨ascii "/books", none⟩, "POST", .CreateBook⟩,
    ⟨⟨ascii "/books/", some "id"⟩, "GET", .GetBook⟩,
    ⟨⟨ascii "/books", none⟩, "GET", .GetAllBooks⟩,
    ⟨⟨ascii "/books/", some "id"⟩, "PUT", .UpdateBook⟩,
    ⟨⟨ascii "/books/", some "id"⟩, "DELETE", .DeleteBook⟩,
    ⟨⟨ascii "/books/author/", some "author"⟩, "GET", .GetBookByAuthor⟩,
    ⟨⟨ascii "/books/year/", some "year"⟩, "GET", .GetBookByYear⟩ ]

/-- Run a registered handler. -/
def Handler.run {σ : Type} (h : Handler) (collection : Collection σ) (s : σ)
    (request : Request) : Outcome σ :=
  match h with
  | .CreateBook => BooksAPI.CreateBook collection s request
  | .GetBook => BooksAPI.GetBook collection s request
  | .GetAllBooks => BooksAPI.GetAllBooks collection s request
  | .UpdateBook => BooksAPI.UpdateBook collection s request
  | .DeleteBook => BooksAPI.DeleteBook collection s request
  | .GetBookByAuthor => BooksAPI.GetBookByAuthor collection s request
  | .GetBookByYear => BooksAPI.GetBookByYear collection s request

/-- Go's `Router.ServeHTTP` for a request whose path is already in cleaned form (the
router answers any other path with a redirect to the cleaned one): the matched
handler runs with the captured variables; without a match the answer is 405
when only the method failed to match and 404 otherwise. -/
def ServeHTTP {σ : Type} (collection : Collection σ) (s : σ) (method : String)
    (path : GoString) (body : json.Body) : Outcome σ :=
  match mux.Match router method path false with
  | .found h vars => h.run collection s ⟨vars, body⟩
  | .methodMismatch => ⟨⟨StatusMethodNotAllowed, .nothing⟩, [], s⟩
  | .notFound => ⟨writeError StatusNotFound "404 page not found\n", [], s⟩

/-! ## Vocabulary of the statements -/

/-- A four-digit year: exactly four bytes, each an ASCII digit. -/
def FourDigits (y : GoString) : Prop :=
  y.length = 4 ∧ ∀ b ∈ y, 48 ≤ b.val ∧ b.val ≤ 57

instance : DecidablePred FourDigits := fun y => by
  unfold FourDigits
  infer_instance

/-- The ASCII digit for `d % 10`. -/
def digit (d : Nat) : Byte := ⟨48 + d % 10, by omega⟩

/-- The year `n` written with four digits, `0000` to `9999`. -/
def yyyy (n : Nat) : GoString :=
  [digit (n / 1000), digit (n / 100), digit (n / 10), digit n]

/-- The request `GET /books/year/{year}` as the handler receives it. -/
def yearRequest (year : GoString) : Request := ⟨[("year", year)], []⟩

/-- The request for `/books/{id}` as a handler receives it. -/
def idRequest (id : GoString) (body : json.Body) : Request := ⟨[("id", id)], body⟩

/-- The Gregorian leap years. -/
def leapYear (n : Nat) : Bool :=
  n % 4 == 0 && (n % 100 != 0 || n % 400 == 0)

/-- The number of days of the civil year `n`. -/
def yearLength (n : Nat) : Int := if leapYear n then 366 else 365

/-- The day on which the civil year `n` begins, counted from 1970-01-01: the
year 0 begins 719528 days before it, and each year begins where the year
before it ends. -/
def newYearDay : Nat → Int
  | 0 => -719528
  | n + 1 => newYearDay n + yearLength n

/-- The instant 00:00:00 UTC on January 1 of the year `n`. -/
def newYear (n : Nat) : Time := ⟨86400 * newYearDay n, 0⟩

/-- The civil year, in UTC, of an instant stored as a BSON DateTime. -/
def civilYear (ms : Int) : Int := (bson.DateTimeToTime ms).Year

/-- A BSON DateTime is an `int64`. -/
def IsDateTime (ms : Int) : Prop :=
  -9223372036854775808 ≤ ms ∧ ms < 9223372036854775808

instance (ms : Int) : Decidable (IsDateTime ms) := by
  unfold IsDateTime
  infer_instance

/-- The response is a JSON array and the encoding of `book` is one of its
elements. -/
def Response.lists (r : Response) (book : Book) : Bool :=
  match r.body, json.MarshalBook book with
  | .array os, some o => decide (o ∈ os)
  | _, _ => false

/-- What the server guarantees of a collection: every document has an `_id`
and no two documents have the same. -/
def mongo.Memory.wf (s : mongo.Memory) : Prop :=
  (∀ d ∈ s.docs, d._id.isSome) ∧ (s.docs.map (fun d => d._id)).Nodup

instance (s : mongo.Memory) : Decidable s.wf := by
  unfold mongo.Memory.wf
  infer_instance

/-! ### Collections used as examples -/

/-- A book released at 2001-01-01T00:00:00Z. -/
def millennium : Document :=
  { bson.Document.empty with _id := some (mongo.NewObjectID 1), released := some 978307200000 }

/-- A book released at 2024-12-31T23:59:59Z. -/
def newYearsEve : Document :=
  { bson.Document.empty with _id := some (mongo.NewObjectID 2), released := some 1735689599000 }

/-- A book released at 2024-02-29T12:00:00Z. -/
def leapDay : Document :=
  { bson.Document.empty with _id := some (mongo.NewObjectID 3), released := some 1709208000000 }

/-- A collection of three books. -/
def shelf : mongo.Memory := ⟨[millennium, newYearsEve, leapDay], 3⟩

/-- A book stored with a title and an author and without a release date. -/
def dune : Document :=
  { bson.Document.empty with
    _id := some (mongo.NewObjectID 1), title := some (ascii "Dune"),
    author := some (ascii "Herbert") }

/-- A collection of one book. -/
def duneShelf : mongo.Memory := ⟨[dune], 1⟩

/-- A collection that cannot be reached: every operation fails. -/
def unreachable : Collection Unit where
  InsertOne _ _ := ((), .error (.other "context deadline exceeded"))
  Find _ _ := .error (.other "context deadline exceeded")
  FindOne _ _ := .error (.other "context deadline exceeded")
  ReplaceOne _ _ _ := ((), .error (.other "context deadline exceeded"))
  DeleteOne _ _ := ((), .error (.other "context deadline exceeded"))

/-- A hexadecimal digit, in either case. -/
def isHexDigit (b : Byte) : Bool :=
  (decide (48 ≤ b.val) && decide (b.val ≤ 57))
    || (decide (97 ≤ b.val) && decide (b.val ≤ 102))
    || (decide (65 ≤ b.val) && decide (b.val ≤ 70))

/-- An identifier as the path carries it: 24 hexadecimal characters. -/
def Hex24 (s : GoString) : Prop :=
  s.length = 24 ∧ ∀ b ∈ s, isHexDigit b = true

instance : DecidablePred Hex24 := fun s => by
  unfold Hex24
  infer_instance

/-- The last `_id` member of a body, if it has one. -/
def bodyID : json.Body → Option ObjectID
  | [] => none
  | ._id id :: ms => (bodyID ms).orElse (fun _ => some id)
  | _ :: ms => bodyID ms

/-- Whether a body has a `released` member. -/
def hasReleased : json.Body → Bool
  | [] => false
  | .released _ :: _ => true
  | _ :: ms => hasReleased ms

namespace time

/-- The days from the start of year 0 of a 400-year cycle to the start of its
year `Y` (proleptic Gregorian calendar). -/
def daysBeforeYear (Y : Int) : Int := 365 * Y + Y / 4 - Y / 100 + Y / 400

/-- The year that `absDate` computes for day `d` of the absolute epoch. -/
def cycleYear (d : Int) : Int :=
  let n1 := d / 146097
  let d1 := d - 146097 * n1
  let n2 := d1 / 36524
  let n2 := n2 - n2 / 4
  let d2 := d1 - 36524 * n2
  let n3 := d2 / 1461
  let d3 := d2 - 1461 * n3
  let n4 := d3 / 365
  let n4 := n4 - n4 / 4
  400 * n1 + 100 * n2 + 4 * n3 + n4

/-- The day of the year that `absDate` computes for day `d` of the absolute
epoch. -/
def cycleDay (d : Int) : Int :=
  let n1 := d / 146097
  let d1 := d - 146097 * n1
  let n2 := d1 / 36524
  let n2 := n2 - n2 / 4
  let d2 := d1 - 36524 * n2
  let n3 := d2 / 1461
  let d3 := d2 - 1461 * n3
  let n4 := d3 / 365
  let n4 := n4 - n4 / 4
  d3 - 365 * n4

end time

/-! ## Lemmas and theorems -/

set_option maxHeartbeats 400000
set_option maxRecDepth 10000

/-! ## Machine integers -/

theorem goDiv_goMod_spec (a b : Int) (hb : 0 < b) :
    a = b * goDiv a b + goMod a b
      ∧ (0 ≤ a → 0 ≤ goMod a b ∧ goMod a b < b)
      ∧ (a < 0 → -b < goMod a b ∧ goMod a b ≤ 0) := by
  unfold goDiv goMod
  have e := Int.tmod_add_tdiv a b
  refine ⟨by omega, ?_, ?_⟩
  · intro ha
    exact ⟨Int.tmod_nonneg b ha, Int.tmod_lt_of_pos a hb⟩
  · intro ha
    have h1 : (-a).tdiv b = -(a.tdiv b) := Int.neg_tdiv a b
    have h2 := Int.tmod_add_tdiv (-a) b
    have h3 : 0 ≤ (-a).tmod b := Int.tmod_nonneg b (by omega)
    have h4 : (-a).tmod b < b := Int.tmod_lt_of_pos (-a) hb
    rw [h1] at h2
    have h5 : b * -(a.tdiv b) = -(b * a.tdiv b) := by ring
    rw [h5] at h2
    constructor <;> omega

theorem goDiv_nonneg (a b : Int) (ha : 0 ≤ a) (hb : 0 ≤ b) : goDiv a b = a / b :=
  Int.tdiv_eq_ediv ha hb

namespace time

theorem norm_of_range (hi lo base : Int) (h0 : 0 ≤ lo) (h1 : lo < base) :
    time.norm hi lo base = (hi, lo) := by
  unfold time.norm
  have : ¬ lo < 0 := by omega
  have : ¬ lo ≥ base := by omega
  simp [*]

theorem daysSinceEpoch_eq (y : Int) (h0 : -292277022399 ≤ y) (h1 : y ≤ 1000000000000) :
    daysSinceEpoch y = daysBeforeYear (y + 292277022399) := by
  unfold daysSinceEpoch daysBeforeYear u64 absoluteZeroYear daysPer400Years daysPer100Years
    daysPer4Years
  simp only []
  omega

theorem daysBeforeYear_mono (a b : Int) (h : a ≤ b) : daysBeforeYear a ≤ daysBeforeYear b := by
  unfold daysBeforeYear
  omega

/-- Go's `time.Date` at the first instant of a year. -/
theorem Date_newYear (y : Int) (h0 : 0 ≤ y) (h1 : y ≤ 10000) :
    Date y 1 1 0 0 0 0 = ⟨86400 * daysBeforeYear (y + 292277022399) - 9223372028715321600, 0⟩ := by
  unfold Date
  have e1 : time.norm y (1 - 1) 12 = (y, 0) := norm_of_range _ _ _ (by norm_num) (by norm_num)
  have e2 : time.norm 0 0 1000000000 = (0, 0) := norm_of_range _ _ _ (by norm_num) (by norm_num)
  have e3 : time.norm 0 0 60 = (0, 0) := norm_of_range _ _ _ (by norm_num) (by norm_num)
  have e4 : time.norm 1 0 24 = (1, 0) := norm_of_range _ _ _ (by norm_num) (by norm_num)
  simp only [e1, e2, e3, e4]
  have e5 : daysBefore (0 + 1 - 1) = 0 := by rfl
  have e6 : (isLeap y && decide ((0:Int) + 1 ≥ 3)) = false := by
    have : ¬ ((0:Int) + 1 ≥ 3) := by norm_num
    simp [this]
  rw [e5, e6, daysSinceEpoch_eq y (by omega) (by omega)]
  have hb : 106751990353000 ≤ daysBeforeYear (y + 292277022399)
      ∧ daysBeforeYear (y + 292277022399) ≤ 106751995000000 := by
    unfold daysBeforeYear; omega
  generalize daysBeforeYear (y + 292277022399) = D at hb
  simp only [Bool.false_eq_true, if_false]
  simp only [u64, i64, secondsPerDay, secondsPerHour, secondsPerMinute, absoluteToInternal,
    internalToUnix, unixToInternal, absoluteZeroYear, internalYear]
  congr 1
  omega

theorem year_cycles (d n1 d1 n2 n2' d2 n3 d3 n4 n4' Y yd : Int)
    (h1 : n1 = d / 146097) (h1' : d1 = d - 146097 * n1)
    (h2 : n2 = d1 / 36524) (h2' : n2' = n2 - n2 / 4) (h2'' : d2 = d1 - 36524 * n2')
    (h3 : n3 = d2 / 1461) (h3' : d3 = d2 - 1461 * n3)
    (h4 : n4 = d3 / 365) (h4' : n4' = n4 - n4 / 4)
    (hY : Y = 400 * n1 + 100 * n2' + 4 * n3 + n4') (hyd : yd = d3 - 365 * n4') :
    daysBeforeYear Y ≤ d ∧ d < daysBeforeYear (Y + 1) ∧ yd = d - daysBeforeYear Y := by
  unfold daysBeforeYear
  have a1 : 0 ≤ d1 ∧ d1 ≤ 146096 := by omega
  have a2 : 0 ≤ n2 ∧ n2 ≤ 4 := by omega
  have a2' : 0 ≤ n2' ∧ n2' ≤ 3 := by omega
  have a3 : 0 ≤ d2 ∧ d2 ≤ 36524 ∧ (n2' < 3 → d2 ≤ 36523) := by omega
  have a4 : 0 ≤ n3 ∧ n3 ≤ 24 := by omega
  have a5 : 0 ≤ d3 ∧ d3 ≤ 1460 ∧ (n3 = 24 → n2' < 3 → d3 ≤ 1459) := by omega
  have a6 : 0 ≤ n4 ∧ n4 ≤ 4 := by omega
  have a7 : 0 ≤ n4' ∧ n4' ≤ 3 := by omega
  have a8 : 0 ≤ yd ∧ yd ≤ 365 ∧ (n4' < 3 → yd ≤ 364)  := by omega
  have b1 : Y / 4 = 100 * n1 + 25 * n2' + n3 := by omega
  have b2 : Y / 100 = 4 * n1 + n2' := by omega
  have b3 : Y / 400 = n1 := by omega
  have e : d = 146097 * n1 + 36524 * n2' + 1461 * n3 + 365 * n4' + yd := by omega
  refine ⟨by omega, ?_, by omega⟩
  by_cases c1 : n4' = 3
  · by_cases c2 : n3 = 24
    · by_cases c3 : n2' = 3
      · have : (Y+1)/4 = 100 * n1 + 100 := by omega
        have : (Y+1)/100 = 4 * n1 + 4 := by omega
        have : (Y+1)/400 = n1 + 1 := by omega
        omega
      · have : (Y+1)/4 = 100 * n1 + 25 * n2' + 25 := by omega
        have : (Y+1)/100 = 4 * n1 + n2' + 1 := by omega
        have : (Y+1)/400 = n1 := by omega
        omega
    · have : (Y+1)/4 = 100 * n1 + 25 * n2' + n3 + 1 := by omega
      have : (Y+1)/100 = 4 * n1 + n2' := by omega
      have : (Y+1)/400 = n1 := by omega
      omega
  · have : (Y+1)/4 = 100 * n1 + 25 * n2' + n3 := by omega
    have : (Y+1)/100 = 4 * n1 + n2' := by omega
    have : (Y+1)/400 = n1 := by omega
    omega

theorem cycleYear_bounds (d : Int) :
    daysBeforeYear (cycleYear d) ≤ d ∧ d < daysBeforeYear (cycleYear d + 1)
      ∧ cycleDay d = d - daysBeforeYear (cycleYear d) :=
  year_cycles d _ _ _ _ _ _ _ _ _ (cycleYear d) (cycleDay d) rfl rfl rfl rfl rfl rfl rfl rfl rfl
    rfl rfl

/-- The year of a day is the one whose days contain it. -/
theorem cycleYear_eq (d Y : Int) (h0 : daysBeforeYear Y ≤ d) (h1 : d < daysBeforeYear (Y + 1)) :
    cycleYear d = Y := by
  obtain ⟨b0, b1, _⟩ := cycleYear_bounds d
  by_contra hne
  rcases lt_or_gt_of_ne hne with h | h
  · have := daysBeforeYear_mono (cycleYear d + 1) Y (by omega)
    omega
  · have := daysBeforeYear_mono (Y + 1) (cycleYear d) (by omega)
    omega

theorem absDate_fst (abs : Int) :
    (absDate abs).1 = i64 (cycleYear (abs / 86400)) + absoluteZeroYear := by
  unfold absDate cycleYear
  simp only [secondsPerDay, secondsPerHour, secondsPerMinute, daysPer400Years, daysPer100Years,
    daysPer4Years]
  norm_num only
  split <;> rfl

end time
namespace time

theorem absDate_of_cycleDay_zero (abs : Int) (h : cycleDay (abs / 86400) = 0) :
    absDate abs = (i64 (cycleYear (abs / 86400)) + absoluteZeroYear, 1, 1, 0) := by
  unfold cycleDay at h
  unfold absDate cycleYear
  simp only [secondsPerDay, secondsPerHour, secondsPerMinute, daysPer400Years, daysPer100Years,
    daysPer4Years] at h ⊢
  norm_num only at h ⊢
  rw [h]
  have e1 : daysBefore 1 = 31 := by rfl
  have e2 : daysBefore 0 = 0 := by rfl
  simp [e1, e2]

theorem absClock_midnight (k : Int) : absClock (86400 * k) = (0, 0, 0) := by
  unfold absClock
  simp only [secondsPerDay, secondsPerHour, secondsPerMinute]
  norm_num

theorem abs_newYear (y : Int) (h0 : 0 ≤ y) (h1 : y ≤ 10000) :
    (Date y 1 1 0 0 0 0).abs = 86400 * daysBeforeYear (y + 292277022399) := by
  rw [Date_newYear y h0 h1]
  have hb : 106751990353000 ≤ daysBeforeYear (y + 292277022399)
      ∧ daysBeforeYear (y + 292277022399) ≤ 106751995000000 := by
    unfold daysBeforeYear; omega
  generalize daysBeforeYear (y + 292277022399) = D at hb
  simp only [Time.abs, u64, unixToInternal, internalToAbsolute, absoluteToInternal,
    absoluteZeroYear, internalYear, secondsPerDay, secondsPerHour, secondsPerMinute]
  omega

theorem absDate_newYear (y : Int) (h0 : 0 ≤ y) (h1 : y ≤ 10000) :
    absDate (Date y 1 1 0 0 0 0).abs = (y, 1, 1, 0) := by
  rw [abs_newYear y h0 h1]
  have hd : (86400 * daysBeforeYear (y + 292277022399)) / 86400
      = daysBeforeYear (y + 292277022399) := by omega
  have hY : cycleYear (daysBeforeYear (y + 292277022399)) = y + 292277022399 :=
    cycleYear_eq _ _ (le_refl _) (by unfold daysBeforeYear; omega)
  have hyd : cycleDay (daysBeforeYear (y + 292277022399)) = 0 := by
    have := (cycleYear_bounds (daysBeforeYear (y + 292277022399))).2.2
    rw [hY] at this
    omega
  rw [absDate_of_cycleDay_zero _ (by rw [hd]; exact hyd), hd, hY]
  simp only [i64, absoluteZeroYear]
  congr 1
  omega

/-- Adding one calendar year to the first instant of a year gives the first
instant of the next. -/
theorem AddDate_newYear (y : Int) (h0 : 0 ≤ y) (h1 : y ≤ 9999) :
    (Date y 1 1 0 0 0 0).AddDate 1 0 0 = Date (y + 1) 1 1 0 0 0 0 := by
  unfold Time.AddDate
  rw [absDate_newYear y h0 (by omega), abs_newYear y h0 (by omega), absClock_midnight]
  simp only [Date_newYear y h0 (by omega)]
  norm_num

end time
namespace time

theorem leadingInt_rem_nil (s : GoString) (x q : Nat) (h : leadingInt s x = some (q, [])) :
    ∀ b ∈ s, 48 ≤ b.val ∧ b.val ≤ 57 := by
  induction s generalizing x with
  | nil => simp
  | cons c s ih =>
    unfold leadingInt at h
    dsimp only at h
    split_ifs at h with h1 h2 h3
    · simp at h
    · intro b hb
      rcases List.mem_cons.mp hb with rfl | hb
      · omega
      · exact ih _ h b hb

theorem Parse_ok_fourDigits (y : GoString) (t : Time) (h : Parse y = .ok t) : FourDigits y := by
  unfold Parse at h
  split_ifs at h with h1
  simp only [not_or, not_lt, not_not] at h1
  obtain ⟨hlen, hdig⟩ := h1
  dsimp only at h
  split at h
  · simp at h
  · rename_i year hyear
    split_ifs at h with h2
    have hlen4 : y.length = 4 := by
      simp only [List.length_drop, ne_eq, not_not] at h2
      omega
    refine ⟨hlen4, ?_⟩
    match y, hlen4 with
    | [a, b, c, d], _ =>
      have ha : 48 ≤ a.val ∧ a.val ≤ 57 := by
        simpa [isDigit] using hdig
      have hsign : ¬ (a.val = 45 ∨ a.val = 43) := by omega
      simp only [List.take, atoi, hsign, if_false] at hyear
      split at hyear
      · simp at hyear
      · rename_i q rem hl
        have hrem : rem = [] := by
          cases rem with
          | nil => rfl
          | cons _ _ => simp at hyear
        subst hrem
        exact leadingInt_rem_nil _ _ _ hl

theorem digit_val (d : Nat) : (digit d).val = 48 + d % 10 := rfl

theorem fourDigits_yyyy (n : Nat) : FourDigits (yyyy n) := by
  refine ⟨rfl, ?_⟩
  intro b hb
  simp only [yyyy, List.mem_cons, List.mem_singleton, List.not_mem_nil, or_false] at hb
  rcases hb with rfl | rfl | rfl | rfl <;> rw [digit_val] <;> omega

theorem fourDigits_eq_yyyy (y : GoString) (h : FourDigits y) : ∃ n, n ≤ 9999 ∧ y = yyyy n := by
  obtain ⟨hlen, hd⟩ := h
  match y, hlen with
  | [a, b, c, d], _ =>
    have ha := hd a (by simp)
    have hb := hd b (by simp)
    have hc := hd c (by simp)
    have hd' := hd d (by simp)
    refine ⟨(a.val - 48) * 1000 + (b.val - 48) * 100 + (c.val - 48) * 10 + (d.val - 48),
      by omega, ?_⟩
    simp only [yyyy, List.cons.injEq, and_true]
    refine ⟨?_, ?_, ?_, ?_⟩ <;> apply Fin.ext <;> rw [digit_val] <;> omega

theorem leadingInt_digit (d : Nat) (s : GoString) (x : Nat) (hx : x ≤ 999) :
    leadingInt (digit d :: s) x = leadingInt s (x * 10 + d % 10) := by
  have e1 : ¬ ((digit d).val < 48 ∨ (digit d).val > 57) := by
    rw [digit_val]; omega
  have e2 : ¬ (x > 9223372036854775808 / 10) := by omega
  have e3 : ¬ (x * 10 + (digit d).val - 48 > 9223372036854775808) := by
    rw [digit_val]; omega
  have e4 : x * 10 + (digit d).val - 48 = x * 10 + d % 10 := by
    rw [digit_val]; omega
  have e5 : ¬ (x * 10 + d % 10 > 9223372036854775808) := by omega
  rw [leadingInt]
  simp only [e1, e2, if_false, e4, e5]

theorem atoi_yyyy (n : Nat) (hn : n ≤ 9999) : atoi (yyyy n) = some (n : Int) := by
  have hsign : ¬ ((digit (n / 1000)).val = 45 ∨ (digit (n / 1000)).val = 43) := by
    rw [digit_val]; omega
  have hl : leadingInt (yyyy n) 0 = some (n, []) := by
    unfold yyyy
    rw [leadingInt_digit _ _ _ (by omega), leadingInt_digit _ _ _ (by omega),
      leadingInt_digit _ _ _ (by omega), leadingInt_digit _ _ _ (by omega), leadingInt]
    congr 2
    omega
  unfold atoi
  have hi : i64 (n : Int) = n := by unfold i64; omega
  simp only [yyyy, hsign, if_false] at hl ⊢
  rw [hl]
  simp [hi]

theorem Parse_yyyy (n : Nat) (hn : n ≤ 9999) :
    Parse (yyyy n) = .ok (Date n 1 1 0 0 0 0) := by
  have h0 : isDigit (yyyy n) 0 = true := by
    have : 48 + n / 1000 % 10 ≤ 57 := by omega
    simp [isDigit, yyyy, digit_val, this]
  have hlen : (yyyy n).length = 4 := rfl
  have htake : List.take 4 (yyyy n) = yyyy n := rfl
  have hdrop : List.drop 4 (yyyy n) = [] := rfl
  unfold Parse
  simp [hlen, h0, htake, hdrop, atoi_yyyy n hn]

theorem Parse_fourDigits (y : GoString) (h : FourDigits y) : ∃ t, Parse y = .ok t := by
  obtain ⟨n, hn, rfl⟩ := fourDigits_eq_yyyy y h
  exact ⟨_, Parse_yyyy n hn⟩

theorem Parse_error_iff (y : GoString) : (∃ e, Parse y = .error e) ↔ ¬ FourDigits y := by
  constructor
  · rintro ⟨e, he⟩ h
    obtain ⟨t, ht⟩ := Parse_fourDigits y h
    rw [he] at ht
    cases ht
  · intro h
    cases hp : Parse y with
    | error e => exact ⟨e, rfl⟩
    | ok t => exact absurd (Parse_ok_fourDigits y t hp) h

theorem daysBeforeYear_newYearDay (n : Nat) :
    daysBeforeYear ((n : Int) + 292277022399) = newYearDay n + 106751991073094 := by
  induction n with
  | zero => unfold daysBeforeYear newYearDay; norm_num
  | succ k ih =>
    have step : daysBeforeYear (((k + 1 : Nat) : Int) + 292277022399)
        = daysBeforeYear ((k : Int) + 292277022399) + yearLength k := by
      unfold daysBeforeYear yearLength leapYear
      push_cast
      by_cases h4 : k % 4 = 0 <;> by_cases h100 : k % 100 = 0 <;> by_cases h400 : k % 400 = 0 <;>
        simp [h4, h100, h400] <;> omega
    rw [step, ih, newYearDay]
    ring

/-- Go's `time.Date` at January 1, 00:00:00 UTC is the first instant of the civil
year. -/
theorem Date_eq_newYear (n : Nat) (hn : n ≤ 10000) : Date n 1 1 0 0 0 0 = newYear n := by
  rw [Date_newYear n (by omega) (by omega), daysBeforeYear_newYearDay, newYear]
  congr 1
  ring

end time

theorem param_yearRequest (y : GoString) : (yearRequest y).param "year" = y := by
  simp [yearRequest, Request.param, List.lookup]

theorem newYearDay_bounds (n : Nat) (hn : n ≤ 10000) :
    -719528 ≤ newYearDay n ∧ newYearDay n ≤ 2932897 := by
  have h := time.daysBeforeYear_newYearDay n
  unfold time.daysBeforeYear at h
  omega

theorem NewDateTimeFromTime_newYear (n : Nat) (hn : n ≤ 10000) :
    bson.NewDateTimeFromTime (newYear n) = 86400000 * newYearDay n := by
  have hb := newYearDay_bounds n hn
  have h0 : goDiv 0 1000000 = 0 := by
    rw [goDiv_nonneg 0 1000000 (le_refl _) (by norm_num)]
    norm_num
  unfold bson.NewDateTimeFromTime newYear
  simp only [h0, i64]
  omega

/-- The filter `GetBookByYear` builds for the year `n`. -/
theorem GetBookByYear_yyyy {σ : Type} (collection : Collection σ) (s : σ) (n : Nat)
    (hn : n ≤ 9999) :
    GetBookByYear collection s (yearRequest (yyyy n)) =
      (let filter := bson.M.released (86400000 * newYearDay n) (86400000 * newYearDay (n + 1))
       match collection.Find s filter with
       | .error _ =>
         ⟨writeError StatusInternalServerError
           "\x7b\"message\": \"Error fetching books by year\"\x7d", [.Find filter], s⟩
       | .ok cursor =>
         match cursor.err with
         | some _ =>
           ⟨writeError StatusInternalServerError
             "\x7b\"message\": \"Error iterating through books by year\"\x7d", [.Find filter], s⟩
         | none => ⟨encodeBooks (decodeAll cursor.docs), [.Find filter], s⟩) := by
  unfold GetBookByYear
  simp only [param_yearRequest, time.Parse_yyyy n hn]
  rw [time.AddDate_newYear n (by omega) (by omega)]
  have e : ((n : Int) + 1) = ((n + 1 : Nat) : Int) := by push_cast; ring
  rw [e, time.Date_eq_newYear n (by omega), time.Date_eq_newYear (n + 1) (by omega),
    NewDateTimeFromTime_newYear n (by omega), NewDateTimeFromTime_newYear (n + 1) (by omega)]

theorem encodeBooks_status (books : List Book) : (encodeBooks books).status = 200 := by
  unfold encodeBooks
  split
  · rfl
  · split <;> rfl

/-- C1. `GetBookByYear` answers 400 with the message "Invalid year format.
Please provide year in YYYY format" exactly when the `{year}` parameter is not
four ASCII digits, and then calls nothing on the store; for four ASCII digits it
does not answer 400 and makes one `Find` call on the store. -/
theorem GetBookByYear_rejects_exactly_malformed_years {σ : Type} (collection : Collection σ)
    (s : σ) (request : Request) :
    ((GetBookByYear collection s request).response
        = ⟨400, .raw
            "\x7b\"message\": \"Invalid year format. Please provide year in YYYY format\"\x7d"⟩
      ↔ ¬ FourDigits (request.param "year"))
    ∧ ((GetBookByYear collection s request).response.status = 400
      ↔ ¬ FourDigits (request.param "year"))
    ∧ (¬ FourDigits (request.param "year") → (GetBookByYear collection s request).calls = [])
    ∧ (FourDigits (request.param "year") →
        ∃ filter, (GetBookByYear collection s request).calls = [.Find filter]) := by
  cases hp : time.Parse (request.param "year") with
  | error e =>
    have hnot : ¬ FourDigits (request.param "year") :=
      (time.Parse_error_iff _).mp ⟨e, hp⟩
    have hr : GetBookByYear collection s request = ⟨writeError StatusBadRequest
        "\x7b\"message\": \"Invalid year format. Please provide year in YYYY format\"\x7d",
        [], s⟩ := by
      unfold GetBookByYear
      simp only [hp]
    rw [hr]
    refine ⟨⟨fun _ => hnot, fun _ => rfl⟩, ⟨fun _ => hnot, fun _ => rfl⟩, fun _ => rfl,
      fun h => absurd h hnot⟩
  | ok t =>
    have hyes : FourDigits (request.param "year") := time.Parse_ok_fourDigits _ t hp
    have hs : (GetBookByYear collection s request).response.status ≠ 400
        ∧ ∃ filter, (GetBookByYear collection s request).calls = [.Find filter] := by
      unfold GetBookByYear
      simp only [hp]
      split
      · exact ⟨by simp [writeError, StatusInternalServerError], _, rfl⟩
      · split
        · exact ⟨by simp [writeError, StatusInternalServerError], _, rfl⟩
        · refine ⟨?_, _, rfl⟩
          rw [encodeBooks_status]
          decide
    refine ⟨⟨fun h => ?_, fun h => absurd hyes h⟩, ⟨fun h => absurd h hs.1, fun h => absurd hyes h⟩,
      fun h => absurd hyes h, fun _ => hs.2⟩
    exact absurd (by rw [h]) hs.1

/-- C1, witness: the years `19xx` (a non-digit), `202` and `20245` (a width
other than 4) and `+123` (a leading sign) are answered 400 with the message; the
year `2024` is not answered 400. -/
theorem GetBookByYear_rejects_19xx :
    (GetBookByYear mongo.healthy ⟨[], 0⟩ (yearRequest (ascii "19xx"))).response
      = ⟨400, .raw
          "\x7b\"message\": \"Invalid year format. Please provide year in YYYY format\"\x7d"⟩
    ∧ (GetBookByYear mongo.healthy ⟨[], 0⟩ (yearRequest (ascii "202"))).response.status = 400
    ∧ (GetBookByYear mongo.healthy ⟨[], 0⟩ (yearRequest (ascii "20245"))).response.status = 400
    ∧ (GetBookByYear mongo.healthy ⟨[], 0⟩ (yearRequest (ascii "+123"))).response.status = 400
    ∧ ¬ (GetBookByYear mongo.healthy ⟨[], 0⟩ (yearRequest (ascii "2024"))).response.status = 400 :=
  ⟨(GetBookByYear_rejects_exactly_malformed_years mongo.healthy ⟨[], 0⟩
      (yearRequest (ascii "19xx"))).1.mpr (by rw [param_yearRequest]; decide),
    (GetBookByYear_rejects_exactly_malformed_years mongo.healthy ⟨[], 0⟩
      (yearRequest (ascii "202"))).2.1.mpr (by rw [param_yearRequest]; decide),
    (GetBookByYear_rejects_exactly_malformed_years mongo.healthy ⟨[], 0⟩
      (yearRequest (ascii "20245"))).2.1.mpr (by rw [param_yearRequest]; decide),
    (GetBookByYear_rejects_exactly_malformed_years mongo.healthy ⟨[], 0⟩
      (yearRequest (ascii "+123"))).2.1.mpr (by rw [param_yearRequest]; decide),
    fun h => (GetBookByYear_rejects_exactly_malformed_years mongo.healthy ⟨[], 0⟩
      (yearRequest (ascii "2024"))).2.1.mp h (by rw [param_yearRequest]; decide)⟩

/-- C2. For every four-digit year `y`, with `n` its value: `time.Parse` accepts
it, `startDate` is 00:00:00 UTC on January 1 of the year `n`, `endDate` is
00:00:00 UTC on January 1 of the year `n + 1`, the two are 366 days apart when
`n` is a leap year and 365 days otherwise, and they are the bounds of the filter
handed to `Find`. -/
theorem GetBookByYear_bounds_are_new_years {σ : Type} (collection : Collection σ) (s : σ)
    (y : GoString) (hy : FourDigits y) :
    ∃ n startDate endDate,
      n ≤ 9999 ∧ y = yyyy n
      ∧ time.Parse y = .ok startDate
      ∧ endDate = startDate.AddDate 1 0 0
      ∧ startDate = newYear n
      ∧ endDate = newYear (n + 1)
      ∧ endDate.unix - startDate.unix = (if leapYear n then 366 else 365) * 86400
      ∧ (GetBookByYear collection s (yearRequest y)).calls
          = [.Find (.released (bson.NewDateTimeFromTime startDate)
              (bson.NewDateTimeFromTime endDate))] := by
  obtain ⟨n, hn, rfl⟩ := time.fourDigits_eq_yyyy y hy
  refine ⟨n, time.Date n 1 1 0 0 0 0, (time.Date n 1 1 0 0 0 0).AddDate 1 0 0, hn, rfl,
    time.Parse_yyyy n hn, rfl, time.Date_eq_newYear n (by omega), ?_, ?_, ?_⟩
  · rw [time.AddDate_newYear n (by omega) (by omega)]
    have e : ((n : Int) + 1) = ((n + 1 : Nat) : Int) := by push_cast; ring
    rw [e, time.Date_eq_newYear (n + 1) (by omega)]
  · rw [time.AddDate_newYear n (by omega) (by omega)]
    have e : ((n : Int) + 1) = ((n + 1 : Nat) : Int) := by push_cast; ring
    rw [e, time.Date_eq_newYear (n + 1) (by omega), time.Date_eq_newYear n (by omega)]
    simp only [newYear, newYearDay, yearLength]
    split_ifs <;> ring
  · unfold GetBookByYear
    simp only [param_yearRequest, time.Parse_yyyy n hn]
    split
    · rfl
    · split <;> rfl

theorem newYear_of_days (n : Nat) (u : Int)
    (h : 86400 * (time.daysBeforeYear ((n : Int) + 292277022399) - 106751991073094) = u) :
    newYear n = ⟨u, 0⟩ := by
  rw [time.daysBeforeYear_newYearDay] at h
  unfold newYear
  generalize newYearDay n = a at h
  congr 1
  omega

theorem newYear_anchors :
    newYear 1970 = ⟨0, 0⟩ ∧ newYear 2024 = ⟨1704067200, 0⟩ ∧ newYear 2025 = ⟨1735689600, 0⟩ :=
  ⟨newYear_of_days 1970 0 (by unfold time.daysBeforeYear; norm_num),
    newYear_of_days 2024 1704067200 (by unfold time.daysBeforeYear; norm_num),
    newYear_of_days 2025 1735689600 (by unfold time.daysBeforeYear; norm_num)⟩

/-- C2, witness: the year `2024`, a leap year, runs from 1704067200 to
1735689600 seconds after the Unix epoch, 366 days; the year 1970 begins at the
Unix epoch. -/
theorem GetBookByYear_bounds_2024 :
    (∃ (n : Nat) (startDate endDate : time.Time),
      n ≤ 9999 ∧ ascii "2024" = yyyy n
      ∧ time.Parse (ascii "2024") = .ok startDate
      ∧ endDate = startDate.AddDate 1 0 0
      ∧ startDate = newYear n
      ∧ endDate = newYear (n + 1)
      ∧ endDate.unix - startDate.unix = (if leapYear n then 366 else 365) * 86400
      ∧ (GetBookByYear mongo.healthy ⟨[], 0⟩ (yearRequest (ascii "2024"))).calls
          = [.Find (.released (bson.NewDateTimeFromTime startDate)
              (bson.NewDateTimeFromTime endDate))])
    ∧ ascii "2024" = yyyy 2024
    ∧ leapYear 2024 = true
    ∧ newYear 1970 = ⟨0, 0⟩ ∧ newYear 2024 = ⟨1704067200, 0⟩ ∧ newYear 2025 = ⟨1735689600, 0⟩ :=
  ⟨GetBookByYear_bounds_are_new_years mongo.healthy ⟨[], 0⟩ (ascii "2024") (by decide),
    by decide, by decide, newYear_anchors⟩

theorem Unix_of_range (sec nsec : Int) (h0 : 0 ≤ nsec) (h1 : nsec < 1000000000) :
    time.Unix sec nsec = ⟨sec, nsec⟩ := by
  unfold time.Unix
  have : ¬ (nsec < 0 ∨ nsec ≥ 1000000000) := by omega
  simp only [this, if_false]

theorem Unix_of_neg (sec nsec : Int) (h0 : -1000000000 < nsec) (h1 : nsec < 0) :
    time.Unix sec nsec = ⟨sec - 1, nsec + 1000000000⟩ := by
  unfold time.Unix
  have hc : nsec < 0 ∨ nsec ≥ 1000000000 := Or.inl h1
  obtain ⟨e, _, hneg⟩ := goDiv_goMod_spec nsec 1000000000 (by norm_num)
  have hm := hneg h1
  have hq : goDiv nsec 1000000000 = 0 := by omega
  simp only [hc, if_true, hq]
  norm_num
  exact h1

/-- A DateTime as a time: the seconds are the floor of the milliseconds. -/
theorem DateTimeToTime_eq (ms : Int) :
    bson.DateTimeToTime ms = ⟨ms / 1000, ms % 1000 * 1000000⟩ := by
  unfold bson.DateTimeToTime
  obtain ⟨e, hpos, hneg⟩ := goDiv_goMod_spec ms 1000 (by norm_num)
  by_cases h : 0 ≤ ms
  · have hm := hpos h
    rw [Unix_of_range _ _ (by omega) (by omega)]
    congr 1 <;> omega
  · have hm := hneg (by omega)
    by_cases hz : goMod ms 1000 = 0
    · rw [Unix_of_range _ _ (by omega) (by omega)]
      congr 1 <;> omega
    · rw [Unix_of_neg _ _ (by omega) (by omega)]
      congr 1 <;> omega

theorem DateTimeToTime_injective (a b : Int) (h : bson.DateTimeToTime a = bson.DateTimeToTime b) :
    a = b := by
  rw [DateTimeToTime_eq, DateTimeToTime_eq] at h
  injection h with h1 h2
  omega

/-- The civil year of a DateTime, without the wrap-arounds. -/
theorem civilYear_eq (ms : Int) (h : IsDateTime ms) :
    civilYear ms = time.cycleYear ((ms / 1000 + 9223372028715321600) / 86400) - 292277022399 := by
  obtain ⟨h0, h1⟩ := h
  unfold civilYear time.Time.Year
  rw [DateTimeToTime_eq, time.absDate_fst]
  have habs : (⟨ms / 1000, ms % 1000 * 1000000⟩ : time.Time).abs
      = ms / 1000 + 9223372028715321600 := by
    simp only [time.Time.abs, u64, time.unixToInternal, time.internalToAbsolute,
      time.absoluteToInternal, time.absoluteZeroYear, time.internalYear, time.secondsPerDay,
      time.secondsPerHour, time.secondsPerMinute]
    omega
  rw [habs]
  obtain ⟨b0, b1, _⟩ := time.cycleYear_bounds ((ms / 1000 + 9223372028715321600) / 86400)
  unfold time.daysBeforeYear at b0 b1
  generalize time.cycleYear ((ms / 1000 + 9223372028715321600) / 86400) = Y at b0 b1 ⊢
  simp only [i64, time.absoluteZeroYear]
  omega

/-- A DateTime lies in the civil year `n` exactly when it is in the half-open
interval from the first instant of `n` to the first instant of `n + 1`. -/
theorem civilYear_eq_iff (ms : Int) (n : Nat) (h : IsDateTime ms) :
    civilYear ms = n ↔
      86400000 * newYearDay n ≤ ms ∧ ms < 86400000 * newYearDay (n + 1) := by
  rw [civilYear_eq ms h]
  have k0 := time.daysBeforeYear_newYearDay n
  have k1 := time.daysBeforeYear_newYearDay (n + 1)
  have e : (((n + 1 : Nat) : Int) + 292277022399) = (n : Int) + 292277022399 + 1 := by
    push_cast; ring
  rw [e] at k1
  obtain ⟨b0, b1, _⟩ := time.cycleYear_bounds ((ms / 1000 + 9223372028715321600) / 86400)
  constructor
  · intro hY
    have hY' : time.cycleYear ((ms / 1000 + 9223372028715321600) / 86400)
        = (n : Int) + 292277022399 := by omega
    rw [hY'] at b0 b1
    constructor <;> omega
  · rintro ⟨l0, l1⟩
    have := time.cycleYear_eq ((ms / 1000 + 9223372028715321600) / 86400)
      ((n : Int) + 292277022399) (by omega) (by omega)
    omega

theorem field_string (key : String) (s : GoString) :
    json.field key (.string s) (.string s) = if s = [] then [] else [(key, .string s)] := by
  unfold json.field json.isEmptyValue
  cases s <;> simp

theorem MarshalBook_eq (b : Book) (h : json.timeMarshalOK b.Released = true) :
    json.MarshalBook b = some (("_id", .objectID b.ID)
      :: ((if b.Title = [] then [] else [("title", json.Value.string b.Title)])
        ++ (if b.Author = [] then [] else [("author", json.Value.string b.Author)])
        ++ (if b.ISBN = [] then [] else [("isbn", json.Value.string b.ISBN)])
        ++ [("released", .time b.Released)])) := by
  unfold json.MarshalBook
  rw [if_pos h, field_string, field_string, field_string]
  have e1 : json.field "_id" (.array b.ID.bytes.length) (.objectID b.ID)
      = [("_id", .objectID b.ID)] := by
    unfold json.field json.isEmptyValue
    rw [b.ID.size]
    rfl
  have e2 : json.field "released" .struct (.time b.Released) = [("released", .time b.Released)] := by
    rfl
  rw [e1, e2]
  simp

theorem MarshalBook_isSome (b : Book) :
    (json.MarshalBook b).isSome = json.timeMarshalOK b.Released := by
  unfold json.MarshalBook
  split <;> simp_all

theorem lookup_MarshalBook (b : Book) (o : json.Object) (h : json.MarshalBook b = some o) :
    o.lookup "_id" = some (.objectID b.ID)
      ∧ o.lookup "title" = (if b.Title = [] then none else some (.string b.Title))
      ∧ o.lookup "author" = (if b.Author = [] then none else some (.string b.Author))
      ∧ o.lookup "isbn" = (if b.ISBN = [] then none else some (.string b.ISBN))
      ∧ o.lookup "released" = some (.time b.Released) := by
  have ok : json.timeMarshalOK b.Released = true := by
    rw [← MarshalBook_isSome, h]; rfl
  rw [MarshalBook_eq b ok] at h
  simp only [Option.some.injEq] at h
  subst h
  by_cases h1 : b.Title = [] <;> by_cases h2 : b.Author = [] <;> by_cases h3 : b.ISBN = [] <;>
    simp [h1, h2, h3, List.lookup]

theorem MarshalBook_injective (a b : Book) (o : json.Object) (ha : json.MarshalBook a = some o)
    (hb : json.MarshalBook b = some o) : a = b := by
  obtain ⟨a1, a2, a3, a4, a5⟩ := lookup_MarshalBook a o ha
  obtain ⟨b1, b2, b3, b4, b5⟩ := lookup_MarshalBook b o hb
  obtain ⟨ida, ta, aa, ia, ra⟩ := a
  obtain ⟨idb, tb, ab, ib, rb⟩ := b
  simp only at a1 a2 a3 a4 a5 b1 b2 b3 b4 b5
  rw [a1] at b1
  rw [a2] at b2
  rw [a3] at b3
  rw [a4] at b4
  rw [a5] at b5
  have e1 : ida = idb := by simpa using b1
  have e5 : ra = rb := by simpa using b5
  have e2 : ta = tb := by
    by_cases h : ta = [] <;> by_cases h' : tb = [] <;> simp [h, h'] at b2 <;> simp_all
  have e3 : aa = ab := by
    by_cases h : aa = [] <;> by_cases h' : ab = [] <;> simp [h, h'] at b3 <;> simp_all
  have e4 : ia = ib := by
    by_cases h : ia = [] <;> by_cases h' : ib = [] <;> simp [h, h'] at b4 <;> simp_all
  subst e1 e2 e3 e4 e5
  rfl

theorem MarshalBooks_mem (bs : List Book) (os : List json.Object)
    (h : json.MarshalBooks bs = some os) (o : json.Object) :
    o ∈ os ↔ ∃ b ∈ bs, json.MarshalBook b = some o := by
  induction bs generalizing os with
  | nil =>
    have e : json.MarshalBooks [] = some [] := rfl
    rw [e] at h
    cases h
    simp
  | cons b bs ih =>
    have e : json.MarshalBooks (b :: bs)
        = json.consElement (json.MarshalBook b) (json.MarshalBooks bs) := rfl
    rw [e] at h
    cases h1 : json.MarshalBook b with
    | none => rw [h1] at h; cases h2 : json.MarshalBooks bs <;> rw [h2] at h <;> cases h
    | some o' =>
      cases h2 : json.MarshalBooks bs with
      | none => rw [h1, h2] at h; cases h
      | some os' =>
        rw [h1, h2] at h
        cases h
        simp only [List.mem_cons, ih os' h2, exists_eq_or_imp, h1, Option.some.injEq]
        constructor
        · rintro (rfl | h)
          · exact Or.inl rfl
          · exact Or.inr h
        · rintro (rfl | h)
          · exact Or.inl rfl
          · exact Or.inr h

theorem MarshalBooks_isSome (bs : List Book)
    (h : ∀ b ∈ bs, json.timeMarshalOK b.Released = true) :
    ∃ os, json.MarshalBooks bs = some os := by
  induction bs with
  | nil => exact ⟨[], rfl⟩
  | cons b bs ih =>
    obtain ⟨os, hos⟩ := ih (fun x hx => h x (List.mem_cons_of_mem _ hx))
    have hb := h b (List.mem_cons_self _ _)
    have : ∃ o, json.MarshalBook b = some o := by
      rw [← Option.isSome_iff_exists, MarshalBook_isSome, hb]
    obtain ⟨o, ho⟩ := this
    refine ⟨o :: os, ?_⟩
    have e : json.MarshalBooks (b :: bs)
        = json.consElement (json.MarshalBook b) (json.MarshalBooks bs) := rfl
    rw [e, ho, hos]
    rfl

theorem lists_encodeBooks_mem (bs : List Book) (b : Book)
    (h : (encodeBooks bs).lists b = true) : b ∈ bs := by
  unfold encodeBooks at h
  split at h
  · simp [Response.lists] at h
  · rename_i x xs
    cases hm : json.MarshalBooks (x :: xs) with
    | none => simp [hm, Response.lists] at h
    | some os =>
      simp only [hm, Response.lists] at h
      cases hb : json.MarshalBook b with
      | none => simp [hb] at h
      | some o =>
        simp only [hb, decide_eq_true_eq] at h
        obtain ⟨b', hb', ho⟩ := (MarshalBooks_mem _ _ hm o).mp h
        rw [MarshalBook_injective b b' o hb ho]
        exact hb'

theorem lists_encodeBooks_of_mem (bs : List Book) (b : Book)
    (hok : ∀ x ∈ bs, json.timeMarshalOK x.Released = true) (hb : b ∈ bs) :
    (encodeBooks bs).lists b = true := by
  obtain ⟨os, hos⟩ := MarshalBooks_isSome bs hok
  have hbo : ∃ o, json.MarshalBook b = some o := by
    rw [← Option.isSome_iff_exists, MarshalBook_isSome, hok b hb]
  obtain ⟨o, ho⟩ := hbo
  unfold encodeBooks
  split
  · simp at hb
  · simp only [hos, Response.lists, ho, decide_eq_true_eq]
    exact (MarshalBooks_mem _ _ hos o).mpr ⟨b, hb, ho⟩

theorem matchesM_released (lo hi : Int) (d : bson.Document) :
    mongo.matchesM (.released lo hi) d = true ↔ ∃ t, d.released = some t ∧ lo ≤ t ∧ t < hi := by
  unfold mongo.matchesM
  cases d.released with
  | none => simp
  | some t => simp

theorem Unmarshal_released (d : bson.Document) (t : Int) (h : d.released = some t) :
    (bson.Unmarshal d).Released = bson.DateTimeToTime t := by
  simp [bson.Unmarshal, h]

theorem GetBookByYear_healthy (s : mongo.Memory) (n : Nat) (hn : n ≤ 9999) :
    (GetBookByYear mongo.healthy s (yearRequest (yyyy n))).response
      = encodeBooks (decodeAll (s.docs.filter
          (mongo.matchesM (.released (86400000 * newYearDay n) (86400000 * newYearDay (n + 1)))))) := by
  rw [GetBookByYear_yyyy mongo.healthy s n hn]
  rfl

theorem timeMarshalOK_of_range (t : Int) (n : Nat) (hn : n ≤ 9999)
    (h0 : 86400000 * newYearDay n ≤ t) (h1 : t < 86400000 * newYearDay (n + 1)) :
    json.timeMarshalOK (bson.DateTimeToTime t) = true := by
  have b0 := newYearDay_bounds n (by omega)
  have b1 := newYearDay_bounds (n + 1) (by omega)
  have hdt : IsDateTime t := by constructor <;> omega
  have hy : civilYear t = n := (civilYear_eq_iff t n hdt).mpr ⟨h0, h1⟩
  unfold civilYear at hy
  unfold json.timeMarshalOK
  rw [hy]
  simp
  omega

/-- C3. Year-range completeness and exclusivity: a stored book released at the
instant `t` is an element of the array `GetBookByYear` returns for the
four-digit year `n` if and only if `n` is the civil year of `t` in UTC. -/
theorem GetBookByYear_lists_book_iff_civil_year (s : mongo.Memory) (d : bson.Document) (t : Int)
    (n : Nat) (hd : d ∈ s.docs) (ht : d.released = some t) (hdt : IsDateTime t)
    (hn : n ≤ 9999) :
    (GetBookByYear mongo.healthy s (yearRequest (yyyy n))).response.lists (bson.Unmarshal d) = true
      ↔ civilYear t = n := by
  rw [GetBookByYear_healthy s n hn, civilYear_eq_iff t n hdt]
  constructor
  · intro h
    have hm := lists_encodeBooks_mem _ _ h
    simp only [decodeAll, List.mem_map, List.mem_filter] at hm
    obtain ⟨d', ⟨_, hmatch⟩, he⟩ := hm
    obtain ⟨t', ht', l0, l1⟩ := (matchesM_released _ _ d').mp hmatch
    have e : bson.DateTimeToTime t' = bson.DateTimeToTime t := by
      rw [← Unmarshal_released d' t' ht', ← Unmarshal_released d t ht, he]
    rw [DateTimeToTime_injective _ _ e] at l0 l1
    exact ⟨l0, l1⟩
  · rintro ⟨l0, l1⟩
    apply lists_encodeBooks_of_mem
    · intro x hx
      simp only [decodeAll, List.mem_map, List.mem_filter] at hx
      obtain ⟨d', ⟨_, hmatch⟩, rfl⟩ := hx
      obtain ⟨t', ht', k0, k1⟩ := (matchesM_released _ _ d').mp hmatch
      rw [Unmarshal_released d' t' ht']
      exact timeMarshalOK_of_range t' n hn k0 k1
    · simp only [decodeAll, List.mem_map, List.mem_filter]
      exact ⟨d, ⟨hd, (matchesM_released _ _ d).mpr ⟨t, ht, l0, l1⟩⟩, rfl⟩

/-- C3, witnesses: the book released at 2001-01-01T00:00:00Z is returned for
2001 and not for 2000; the book released at 2024-12-31T23:59:59Z is returned for
2024 and not for 2023 or 2025; the book released at 2024-02-29T12:00:00Z is
returned for 2024. -/
theorem GetBookByYear_boundary_and_leap_year_witnesses :
    (GetBookByYear mongo.healthy shelf (yearRequest (yyyy 2001))).response.lists
        (bson.Unmarshal millennium) = true
    ∧ ¬ (GetBookByYear mongo.healthy shelf (yearRequest (yyyy 2000))).response.lists
        (bson.Unmarshal millennium) = true
    ∧ (GetBookByYear mongo.healthy shelf (yearRequest (yyyy 2024))).response.lists
        (bson.Unmarshal newYearsEve) = true
    ∧ ¬ (GetBookByYear mongo.healthy shelf (yearRequest (yyyy 2025))).response.lists
        (bson.Unmarshal newYearsEve) = true
    ∧ ¬ (GetBookByYear mongo.healthy shelf (yearRequest (yyyy 2023))).response.lists
        (bson.Unmarshal newYearsEve) = true
    ∧ (GetBookByYear mongo.healthy shelf (yearRequest (yyyy 2024))).response.lists
        (bson.Unmarshal leapDay) = true :=
  ⟨(GetBookByYear_lists_book_iff_civil_year shelf millennium 978307200000 2001 (by decide) rfl
      (by decide) (by decide)).mpr (by decide),
   fun h => absurd ((GetBookByYear_lists_book_iff_civil_year shelf millennium 978307200000 2000
      (by decide) rfl (by decide) (by decide)).mp h) (by decide),
   (GetBookByYear_lists_book_iff_civil_year shelf newYearsEve 1735689599000 2024 (by decide) rfl
      (by decide) (by decide)).mpr (by decide),
   fun h => absurd ((GetBookByYear_lists_book_iff_civil_year shelf newYearsEve 1735689599000 2025
      (by decide) rfl (by decide) (by decide)).mp h) (by decide),
   fun h => absurd ((GetBookByYear_lists_book_iff_civil_year shelf newYearsEve 1735689599000 2023
      (by decide) rfl (by decide) (by decide)).mp h) (by decide),
   (GetBookByYear_lists_book_iff_civil_year shelf leapDay 1709208000000 2024 (by decide) rfl
      (by decide) (by decide)).mpr (by decide)⟩

theorem Decode_released (body : json.Body) (book : Book) (h : hasReleased body = false) :
    (json.Decode book body).Released = book.Released := by
  induction body generalizing book with
  | nil => rfl
  | cons m ms ih =>
    cases m <;> simp only [hasReleased, json.Decode] at h ⊢ <;> first
      | exact ih _ h
      | exact absurd h (by simp)

theorem Marshal_released_none (book : Book) (h : book.Released = time.Time.zero) :
    (bson.Marshal book).released = none := by
  have hz : time.Time.zero.IsZero = true := by decide
  simp [bson.Marshal, h, hz]

theorem healthy_InsertOne_docs (s : mongo.Memory) (document : bson.Document) :
    ((mongo.healthy.InsertOne s document).1.docs = s.docs
        ∧ ∃ e, (mongo.healthy.InsertOne s document).2 = .error e)
      ∨ ∃ id, (∀ d ∈ s.docs, d._id ≠ some id)
          ∧ (document._id = none ∨ document._id = some id)
          ∧ (mongo.healthy.InsertOne s document).1.docs
              = s.docs ++ [{ document with _id := some id }]
          ∧ (mongo.healthy.InsertOne s document).2 = .ok ⟨id⟩ := by
  cases hid : document._id with
  | none =>
    by_cases h : ∃ x ∈ s.docs, x._id = some (mongo.NewObjectID (s.generated + 1))
    · left
      simp [mongo.healthy, hid, h]
    · right
      refine ⟨mongo.NewObjectID (s.generated + 1), fun d hd he => h ⟨d, hd, he⟩, Or.inl rfl, ?_⟩
      simp [mongo.healthy, hid, h]
  | some id =>
    by_cases h : ∃ x ∈ s.docs, x._id = some id
    · left
      simp [mongo.healthy, hid, h]
    · right
      refine ⟨id, fun d hd he => h ⟨d, hd, he⟩, Or.inr rfl, ?_⟩
      simp [mongo.healthy, hid, h]

theorem healthy_InsertOne_wf (s : mongo.Memory) (document : bson.Document) (h : s.wf) :
    (mongo.healthy.InsertOne s document).1.wf := by
  rcases healthy_InsertOne_docs s document with ⟨hd, _⟩ | ⟨id, hfresh, _, hd, _⟩
  · unfold mongo.Memory.wf at h ⊢
    rw [hd]
    exact h
  · unfold mongo.Memory.wf at h ⊢
    rw [hd]
    obtain ⟨h1, h2⟩ := h
    constructor
    · intro d hmem
      rcases List.mem_append.mp hmem with hmem | hmem
      · exact h1 d hmem
      · simp only [List.mem_singleton] at hmem
        rw [hmem]
        rfl
    · rw [List.map_append, List.nodup_append]
      refine ⟨h2, by simp, ?_⟩
      intro x hx hx'
      simp only [List.map_cons, List.map_nil, List.mem_singleton] at hx'
      obtain ⟨d, hd', rfl⟩ := List.mem_map.mp hx
      exact hfresh d hd' hx'

/-- In a collection with unique identifiers, a document without a release date
is not in the array `GetBookByYear` returns. -/
theorem not_listed_of_released_none (s : mongo.Memory) (hwf : s.wf) (d : bson.Document)
    (hd : d ∈ s.docs) (hr : d.released = none) (n : Nat) (hn : n ≤ 9999) :
    (GetBookByYear mongo.healthy s (yearRequest (yyyy n))).response.lists (bson.Unmarshal d)
      = false := by
  rw [GetBookByYear_healthy s n hn]
  by_contra h
  have h' := lists_encodeBooks_mem _ _ (by simpa using h)
  simp only [decodeAll, List.mem_map, List.mem_filter] at h'
  obtain ⟨d', ⟨hd', hmatch⟩, he⟩ := h'
  obtain ⟨t', ht', _, _⟩ := (matchesM_released _ _ d').mp hmatch
  have hids : d'._id = d._id := by
    have e : (bson.Unmarshal d').ID = (bson.Unmarshal d).ID := by rw [he]
    have s1 := hwf.1 d hd
    have s2 := hwf.1 d' hd'
    obtain ⟨i, hi⟩ := Option.isSome_iff_exists.mp s1
    obtain ⟨j, hj⟩ := Option.isSome_iff_exists.mp s2
    simp only [bson.Unmarshal, hi, hj, Option.getD_some] at e
    rw [hi, hj, e]
  have hdd : d' = d := List.inj_on_of_nodup_map hwf.2 hd' hd hids
  rw [hdd, hr] at ht'
  cases ht'

/-- C4. In a collection whose documents have distinct identifiers: a book
created from a body without a `released` member is handed to the store without a
`released` value, is stored without one, and is then in the array
`GetBookByYear` returns for no four-digit year, the year 0001 included; so is
every stored book without a `released` value. -/
theorem GetBookByYear_omits_books_without_released (s : mongo.Memory) (hwf : s.wf)
    (request : Request) (hbody : hasReleased request.body = false) (n : Nat) (hn : n ≤ 9999) :
    (∀ document, Call.InsertOne document ∈ (CreateBook mongo.healthy s request).calls →
        document.released = none)
    ∧ (∀ id, (CreateBook mongo.healthy s request).response = encodeInsertOneResult ⟨id⟩ →
        ∃ d ∈ (CreateBook mongo.healthy s request).state.docs,
          d._id = some id ∧ d.released = none)
    ∧ (∀ d ∈ (CreateBook mongo.healthy s request).state.docs, d.released = none →
        (GetBookByYear mongo.healthy (CreateBook mongo.healthy s request).state
          (yearRequest (yyyy n))).response.lists (bson.Unmarshal d) = false) := by
  have hdoc : (bson.Marshal (json.Decode Book.zero request.body)).released = none :=
    Marshal_released_none _ (Decode_released _ _ hbody)
  have hcreate : (CreateBook mongo.healthy s request).calls
        = [.InsertOne (bson.Marshal (json.Decode Book.zero request.body))]
      ∧ (CreateBook mongo.healthy s request).state
        = (mongo.healthy.InsertOne s (bson.Marshal (json.Decode Book.zero request.body))).1
      ∧ (∀ id, (CreateBook mongo.healthy s request).response = encodeInsertOneResult ⟨id⟩ →
          (mongo.healthy.InsertOne s (bson.Marshal (json.Decode Book.zero request.body))).2
            = .ok ⟨id⟩) := by
    unfold CreateBook
    simp only []
    split
    · rename_i s' e heq
      refine ⟨rfl, by rw [heq], ?_⟩
      intro id h
      simp [writeError, encodeInsertOneResult, StatusInternalServerError, StatusOK] at h
    · rename_i s' r heq
      refine ⟨rfl, by rw [heq], ?_⟩
      intro id h
      rw [heq]
      simp only [encodeInsertOneResult, Response.mk.injEq, ResponseBody.object.injEq,
        List.cons.injEq, Prod.mk.injEq, json.Value.objectID.injEq, true_and, and_true] at h
      obtain ⟨r⟩ := r
      simp only at h
      rw [h]
  obtain ⟨hcalls, hstate, hresp⟩ := hcreate
  refine ⟨?_, ?_, ?_⟩
  · intro document hmem
    rw [hcalls, List.mem_singleton] at hmem
    cases hmem
    exact hdoc
  · intro id hid
    have hok := hresp id hid
    rw [hstate]
    rcases healthy_InsertOne_docs s (bson.Marshal (json.Decode Book.zero request.body)) with
      ⟨_, e, he⟩ | ⟨id', _, _, hd, hr⟩
    · rw [he] at hok
      cases hok
    · rw [hr] at hok
      cases hok
      rw [hd]
      exact ⟨_, List.mem_append_right _ (List.mem_singleton_self _), rfl, hdoc⟩
  · intro d hd hr
    rw [hstate] at hd ⊢
    exact not_listed_of_released_none _ (healthy_InsertOne_wf s _ hwf) d hd hr n hn

/-- C4, witness: the lower bound for the year 0001 is the zero time, and a
book created with only a title in a collection of three is not returned for the
year 0001. -/
theorem GetBookByYear_omits_created_book_witness :
    newYear 1 = time.Time.zero
    ∧ (GetBookByYear mongo.healthy
        (CreateBook mongo.healthy shelf ⟨[], [.title (ascii "Dune")]⟩).state
        (yearRequest (yyyy 1))).response.lists
          (bson.Unmarshal { bson.Document.empty with
            _id := some (mongo.NewObjectID 4), title := some (ascii "Dune") }) = false :=
  ⟨by decide,
    (GetBookByYear_omits_books_without_released shelf (by decide) ⟨[], [.title (ascii "Dune")]⟩
      (by decide) 1 (by decide)).2.2 _ (by decide) rfl⟩

theorem fromHexChar_isSome (c : Byte) : (hex.fromHexChar c).isSome = isHexDigit c := by
  unfold hex.fromHexChar isHexDigit
  split_ifs with h1 h2 h3 <;> simp <;> omega

theorem DecodeString_some (s : GoString) (bs : List Byte) (h : hex.DecodeString s = some bs) :
    s.length = 2 * bs.length ∧ ∀ b ∈ s, isHexDigit b = true := by
  induction s using hex.DecodeString.induct generalizing bs with
  | case1 =>
    simp only [hex.DecodeString, Option.some.injEq] at h
    subst h
    simp
  | case2 c => simp [hex.DecodeString] at h
  | case3 p q rest a b hp hq bs' hrest ih =>
    simp only [hex.DecodeString, hp, hq, hrest, Option.some.injEq] at h
    subst h
    obtain ⟨h1, h2⟩ := ih bs' hrest
    refine ⟨by simp [h1]; omega, ?_⟩
    intro x hx
    simp only [List.mem_cons] at hx
    rcases hx with rfl | rfl | hx
    · rw [← fromHexChar_isSome]; simp [*]
    · rw [← fromHexChar_isSome]; simp [*]
    · exact h2 x hx
  | case4 p q rest a b hp hq hrest ih =>
    simp [hex.DecodeString, hp, hq, hrest] at h
  | case5 p q rest hnot =>
    exfalso
    unfold hex.DecodeString at h
    split at h
    · rename_i a b hp hq
      exact hnot a b hp hq
    · simp at h

theorem DecodeString_of_hex (n : Nat) (s : GoString) (hlen : s.length = 2 * n)
    (h : ∀ b ∈ s, isHexDigit b = true) :
    ∃ bs, hex.DecodeString s = some bs ∧ bs.length = n := by
  induction n generalizing s with
  | zero =>
    have : s = [] := List.length_eq_zero.mp (by omega)
    subst this
    exact ⟨[], rfl, rfl⟩
  | succ k ih =>
    match s, hlen with
    | p :: q :: rest, hlen =>
      have hp : (hex.fromHexChar p).isSome = true := by
        rw [fromHexChar_isSome]; exact h p (by simp)
      have hq : (hex.fromHexChar q).isSome = true := by
        rw [fromHexChar_isSome]; exact h q (by simp)
      obtain ⟨a, ha⟩ := Option.isSome_iff_exists.mp hp
      obtain ⟨b, hb⟩ := Option.isSome_iff_exists.mp hq
      obtain ⟨bs, hbs, hl⟩ := ih rest (by simp at hlen; omega)
        (fun x hx => h x (by simp [hx]))
      refine ⟨Fin.ofNat (a * 16 + b) :: bs, ?_, by simp [hl]⟩
      simp [hex.DecodeString, ha, hb, hbs]

/-- Go's `ObjectIDFromHex` succeeds exactly on 24 hexadecimal characters. -/
theorem ObjectIDFromHex_ok_iff (s : GoString) : (ObjectIDFromHex s).2 = none ↔ Hex24 s := by
  unfold ObjectIDFromHex Hex24
  cases hd : hex.DecodeString s with
  | none =>
    constructor
    · intro h
      cases h
    · rintro ⟨hlen, hall⟩
      obtain ⟨bs, hbs, _⟩ := DecodeString_of_hex 12 s (by omega) hall
      rw [hd] at hbs
      cases hbs
  | some b =>
    obtain ⟨h1, h2⟩ := DecodeString_some s b hd
    simp only
    split_ifs with hl
    · exact ⟨fun _ => ⟨by omega, h2⟩, fun _ => rfl⟩
    · constructor
      · intro h
        cases h
      · rintro ⟨hlen, _⟩
        omega

/-- On anything else the error is discarded by the handlers and the identifier
is the all-zero one. -/
theorem ObjectIDFromHex_not_hex (s : GoString) (h : ¬ Hex24 s) :
    ObjectIDFromHex s = (NilObjectID, some .invalidHex) := by
  have hne : (ObjectIDFromHex s).2 ≠ none := fun e => h ((ObjectIDFromHex_ok_iff s).mp e)
  unfold ObjectIDFromHex at hne ⊢
  cases hd : hex.DecodeString s with
  | none => rfl
  | some b =>
    rw [hd] at hne
    simp only at hne ⊢
    split_ifs with hl
    · simp [hl] at hne
    · rfl

theorem Marshal_filter (id : ObjectID) :
    bson.Marshal { Book.zero with ID := id }
      = if id = NilObjectID then bson.Document.empty
        else { bson.Document.empty with _id := some id } := by
  have hz : time.Time.zero.IsZero = true := by decide
  unfold bson.Marshal Book.zero primitive.ObjectID.IsZero bson.Document.empty
  by_cases h : id = NilObjectID <;> simp [h, hz]

section Propagation

variable {σ : Type} (collection : Collection σ) (s : σ) (request : Request)

theorem CreateBook_spec :
    (CreateBook collection s request).calls
        = [.InsertOne (bson.Marshal (json.Decode Book.zero request.body))]
    ∧ (∀ e s', collection.InsertOne s (bson.Marshal (json.Decode Book.zero request.body))
          = (s', .error e) →
        CreateBook collection s request
          = ⟨⟨500, .raw "\x7b\"message\": \"Error creating book\"\x7d"⟩,
              [.InsertOne (bson.Marshal (json.Decode Book.zero request.body))], s'⟩)
    ∧ (∀ r s', collection.InsertOne s (bson.Marshal (json.Decode Book.zero request.body))
          = (s', .ok r) →
        CreateBook collection s request
          = ⟨encodeInsertOneResult r,
              [.InsertOne (bson.Marshal (json.Decode Book.zero request.body))], s'⟩) := by
  unfold CreateBook
  refine ⟨?_, ?_, ?_⟩
  · simp only []
    split <;> rfl
  · intro e s' h
    simp only [h]
    rfl
  · intro r s' h
    simp only [h]

theorem find_spec (filter : bson.M) (m1 m2 : String) :
    let run : Outcome σ :=
      match collection.Find s filter with
      | .error _ => ⟨writeError StatusInternalServerError m1, [.Find filter], s⟩
      | .ok cursor =>
        let books := decodeAll cursor.docs
        match cursor.err with
        | some _ => ⟨writeError StatusInternalServerError m2, [.Find filter], s⟩
        | none => ⟨encodeBooks books, [.Find filter], s⟩
    run.calls = [.Find filter]
    ∧ (∀ e, collection.Find s filter = .error e → run.response = ⟨500, .raw m1⟩)
    ∧ (∀ cursor e, collection.Find s filter = .ok cursor → cursor.err = some e →
        run.response = ⟨500, .raw m2⟩)
    ∧ (∀ cursor, collection.Find s filter = .ok cursor → cursor.err = none →
        run.response = encodeBooks (decodeAll cursor.docs)) := by
  intro run
  refine ⟨?_, ?_, ?_, ?_⟩
  · show (match collection.Find s filter with
      | .error _ => _
      | .ok cursor => _ : Outcome σ).calls = _
    split
    · rfl
    · split <;> rfl
  · intro e h
    show (match collection.Find s filter with
      | .error _ => _
      | .ok cursor => _ : Outcome σ).response = _
    rw [h]
    rfl
  · intro cursor e h he
    show (match collection.Find s filter with
      | .error _ => _
      | .ok cursor => _ : Outcome σ).response = _
    rw [h]
    simp only [he]
    rfl
  · intro cursor h he
    show (match collection.Find s filter with
      | .error _ => _
      | .ok cursor => _ : Outcome σ).response = _
    rw [h]
    simp only [he]

theorem find_propagates (filter : bson.M) (m1 m2 : String) (run : Outcome σ)
    (hrun : run =
      match collection.Find s filter with
      | .error _ => ⟨writeError StatusInternalServerError m1, [.Find filter], s⟩
      | .ok cursor =>
        let books := decodeAll cursor.docs
        match cursor.err with
        | some _ => ⟨writeError StatusInternalServerError m2, [.Find filter], s⟩
        | none => ⟨encodeBooks books, [.Find filter], s⟩) :
    run.calls = [.Find filter]
      ∧ (∀ e, collection.Find s filter = .error e → run.response = ⟨500, .raw m1⟩)
      ∧ (∀ cursor e, collection.Find s filter = .ok cursor → cursor.err = some e →
          run.response = ⟨500, .raw m2⟩)
      ∧ (∀ cursor, collection.Find s filter = .ok cursor → cursor.err = none →
          run.response.status ≠ 500) := by
  obtain ⟨h0, h1, h2, h3⟩ := find_spec collection s filter m1 m2
  rw [← hrun] at h0 h1 h2 h3
  refine ⟨h0, h1, h2, ?_⟩
  intro cursor hc he
  rw [h3 cursor hc he, encodeBooks_status]
  decide

theorem GetBook_spec :
    (GetBook collection s request).calls
        = [.FindOne (bson.Marshal { Book.zero with ID := (ObjectIDFromHex (request.param "id")).1 })]
    ∧ (∀ e, collection.FindOne s
          (bson.Marshal { Book.zero with ID := (ObjectIDFromHex (request.param "id")).1 })
          = .error e →
        (GetBook collection s request).response
          = ⟨500, .raw "\x7b\"message\": \"Error fetching book\"\x7d"⟩)
    ∧ (∀ d, collection.FindOne s
          (bson.Marshal { Book.zero with ID := (ObjectIDFromHex (request.param "id")).1 })
          = .ok d →
        (GetBook collection s request).response = encodeBook (bson.Unmarshal d))
    ∧ (GetBook collection s request).state = s := by
  unfold GetBook
  refine ⟨?_, ?_, ?_, ?_⟩
  · simp only []
    split <;> rfl
  · intro e h
    simp only [h]
    rfl
  · intro d h
    simp only [h]
  · simp only []
    split <;> rfl

theorem UpdateBook_spec :
    (UpdateBook collection s request).calls
        = [.ReplaceOne
            (bson.Marshal { Book.zero with ID := (ObjectIDFromHex (request.param "id")).1 })
            (bson.Marshal (json.Decode Book.zero request.body))]
    ∧ (∀ e s', collection.ReplaceOne s
          (bson.Marshal { Book.zero with ID := (ObjectIDFromHex (request.param "id")).1 })
          (bson.Marshal (json.Decode Book.zero request.body)) = (s', .error e) →
        (UpdateBook collection s request).response
            = ⟨500, .raw "\x7b\"message\": \"Error updating book\"\x7d"⟩
          ∧ (UpdateBook collection s request).state = s')
    ∧ (∀ r s', collection.ReplaceOne s
          (bson.Marshal { Book.zero with ID := (ObjectIDFromHex (request.param "id")).1 })
          (bson.Marshal (json.Decode Book.zero request.body)) = (s', .ok r) →
        (UpdateBook collection s request).response = encodeUpdateResult r
          ∧ (UpdateBook collection s request).state = s') := by
  unfold UpdateBook
  refine ⟨?_, ?_, ?_⟩
  · simp only []
    split <;> rfl
  · intro e s' h
    simp only [h]
    exact ⟨rfl, trivial⟩
  · intro r s' h
    simp only [h]
    exact ⟨trivial, trivial⟩

theorem DeleteBook_spec :
    (DeleteBook collection s request).calls
        = [.DeleteOne
            (bson.Marshal { Book.zero with ID := (ObjectIDFromHex (request.param "id")).1 })]
    ∧ (∀ e s', collection.DeleteOne s
          (bson.Marshal { Book.zero with ID := (ObjectIDFromHex (request.param "id")).1 })
          = (s', .error e) →
        (DeleteBook collection s request).response
            = ⟨500, .raw "\x7b\"message\": \"Error deleting book\"\x7d"⟩
          ∧ (DeleteBook collection s request).state = s')
    ∧ (∀ r s', collection.DeleteOne s
          (bson.Marshal { Book.zero with ID := (ObjectIDFromHex (request.param "id")).1 })
          = (s', .ok r) →
        (DeleteBook collection s request).response = encodeDeleteResult r
          ∧ (DeleteBook collection s request).state = s') := by
  unfold DeleteBook
  refine ⟨?_, ?_, ?_⟩
  · simp only []
    split <;> rfl
  · intro e s' h
    simp only [h]
    exact ⟨rfl, trivial⟩
  · intro r s' h
    simp only [h]
    exact ⟨trivial, trivial⟩

theorem encodeBook_status (book : Book) : (encodeBook book).status = 200 := by
  unfold encodeBook
  split <;> rfl

/-- C8. Failure propagation.  Each of the seven handlers makes its one call on
the store (insert, find, find-one, replace, delete; `GetBookByYear` once the
year has parsed), with the document or filter shown.  When that operation, or
for the list handlers the iteration of the cursor it returned, reports a
failure, the response is status 500 with the fixed message of that handler and
step, whatever the failure and the request; when it returns a result, the
status is not 500. -/
theorem handlers_propagate_store_failures :
    ((CreateBook collection s request).calls
        = [.InsertOne (bson.Marshal (json.Decode Book.zero request.body))]
      ∧ (∀ e s', collection.InsertOne s (bson.Marshal (json.Decode Book.zero request.body))
          = (s', .error e) →
        (CreateBook collection s request).response
          = ⟨500, .raw "\x7b\"message\": \"Error creating book\"\x7d"⟩)
      ∧ (∀ r s', collection.InsertOne s (bson.Marshal (json.Decode Book.zero request.body))
          = (s', .ok r) →
        (CreateBook collection s request).response.status ≠ 500))
    ∧ ((GetAllBooks collection s request).calls = [.Find .empty]
      ∧ (∀ e, collection.Find s .empty = .error e →
        (GetAllBooks collection s request).response
          = ⟨500, .raw "\x7b\"message\": \"Error fetching books\"\x7d"⟩)
      ∧ (∀ cursor e, collection.Find s .empty = .ok cursor → cursor.err = some e →
        (GetAllBooks collection s request).response
          = ⟨500, .raw "\x7b\"message\": \"Error iterating through books\"\x7d"⟩)
      ∧ (∀ cursor, collection.Find s .empty = .ok cursor → cursor.err = none →
        (GetAllBooks collection s request).response.status ≠ 500))
    ∧ (∀ t, time.Parse (request.param "year") = .ok t →
      (GetBookByYear collection s request).calls
          = [.Find (.released (bson.NewDateTimeFromTime t)
              (bson.NewDateTimeFromTime (t.AddDate 1 0 0)))]
      ∧ (∀ e, collection.Find s (.released (bson.NewDateTimeFromTime t)
            (bson.NewDateTimeFromTime (t.AddDate 1 0 0))) = .error e →
        (GetBookByYear collection s request).response
          = ⟨500, .raw "\x7b\"message\": \"Error fetching books by year\"\x7d"⟩)
      ∧ (∀ cursor e, collection.Find s (.released (bson.NewDateTimeFromTime t)
            (bson.NewDateTimeFromTime (t.AddDate 1 0 0))) = .ok cursor →
          cursor.err = some e →
        (GetBookByYear collection s request).response
          = ⟨500, .raw "\x7b\"message\": \"Error iterating through books by year\"\x7d"⟩)
      ∧ (∀ cursor, collection.Find s (.released (bson.NewDateTimeFromTime t)
            (bson.NewDateTimeFromTime (t.AddDate 1 0 0))) = .ok cursor →
          cursor.err = none →
        (GetBookByYear collection s request).response.status ≠ 500))
    ∧ ((GetBookByAuthor collection s request).calls = [.Find (.author (request.param "author"))]
      ∧ (∀ e, collection.Find s (.author (request.param "author")) = .error e →
        (GetBookByAuthor collection s request).response
          = ⟨500, .raw "\x7b\"message\": \"Error fetching books by author\"\x7d"⟩)
      ∧ (∀ cursor e, collection.Find s (.author (request.param "author")) = .ok cursor →
          cursor.err = some e →
        (GetBookByAuthor collection s request).response
          = ⟨500, .raw "\x7b\"message\": \"Error iterating through books by author\"\x7d"⟩)
      ∧ (∀ cursor, collection.Find s (.author (request.param "author")) = .ok cursor →
          cursor.err = none →
        (GetBookByAuthor collection s request).response.status ≠ 500))
    ∧ ((GetBook collection s request).calls
        = [.FindOne (bson.Marshal { Book.zero with ID := (ObjectIDFromHex (request.param "id")).1 })]
      ∧ (∀ e, collection.FindOne s
          (bson.Marshal { Book.zero with ID := (ObjectIDFromHex (request.param "id")).1 })
          = .error e →
        (GetBook collection s request).response
          = ⟨500, .raw "\x7b\"message\": \"Error fetching book\"\x7d"⟩)
      ∧ (∀ d, collection.FindOne s
          (bson.Marshal { Book.zero with ID := (ObjectIDFromHex (request.param "id")).1 })
          = .ok d →
        (GetBook collection s request).response.status ≠ 500))
    ∧ ((UpdateBook collection s request).calls
        = [.ReplaceOne
            (bson.Marshal { Book.zero with ID := (ObjectIDFromHex (request.param "id")).1 })
            (bson.Marshal (json.Decode Book.zero request.body))]
      ∧ (∀ e s', collection.ReplaceOne s
          (bson.Marshal { Book.zero with ID := (ObjectIDFromHex (request.param "id")).1 })
          (bson.Marshal (json.Decode Book.zero request.body)) = (s', .error e) →
        (UpdateBook collection s request).response
          = ⟨500, .raw "\x7b\"message\": \"Error updating book\"\x7d"⟩)
      ∧ (∀ r s', collection.ReplaceOne s
          (bson.Marshal { Book.zero with ID := (ObjectIDFromHex (request.param "id")).1 })
          (bson.Marshal (json.Decode Book.zero request.body)) = (s', .ok r) →
        (UpdateBook collection s request).response.status ≠ 500))
    ∧ ((DeleteBook collection s request).calls
        = [.DeleteOne
            (bson.Marshal { Book.zero with ID := (ObjectIDFromHex (request.param "id")).1 })]
      ∧ (∀ e s', collection.DeleteOne s
          (bson.Marshal { Book.zero with ID := (ObjectIDFromHex (request.param "id")).1 })
          = (s', .error e) →
        (DeleteBook collection s request).response
          = ⟨500, .raw "\x7b\"message\": \"Error deleting book\"\x7d"⟩)
      ∧ (∀ r s', collection.DeleteOne s
          (bson.Marshal { Book.zero with ID := (ObjectIDFromHex (request.param "id")).1 })
          = (s', .ok r) →
        (DeleteBook collection s request).response.status ≠ 500)) := by
  refine ⟨?_, ?_, ?_, ?_, ?_, ?_, ?_⟩
  · obtain ⟨h0, h1, h2⟩ := CreateBook_spec collection s request
    refine ⟨h0, fun e s' h => by rw [h1 e s' h], fun r s' h => ?_⟩
    rw [h2 r s' h]
    simp [encodeInsertOneResult, StatusOK]
  · exact find_propagates collection s .empty _ _ _ rfl
  · intro t hp
    refine find_propagates collection s
      (.released (bson.NewDateTimeFromTime t) (bson.NewDateTimeFromTime (t.AddDate 1 0 0)))
      _ _ _ ?_
    unfold GetBookByYear
    simp only [hp]
  · exact find_propagates collection s (.author (request.param "author")) _ _ _ rfl
  · obtain ⟨h0, h1, h2, _⟩ := GetBook_spec collection s request
    refine ⟨h0, h1, fun d h => by rw [h2 d h, encodeBook_status]; decide⟩
  · obtain ⟨h0, h1, h2⟩ := UpdateBook_spec collection s request
    refine ⟨h0, fun e s' h => (h1 e s' h).1, fun r s' h => ?_⟩
    rw [(h2 r s' h).1]
    simp [encodeUpdateResult, StatusOK]
  · obtain ⟨h0, h1, h2⟩ := DeleteBook_spec collection s request
    refine ⟨h0, fun e s' h => (h1 e s' h).1, fun r s' h => ?_⟩
    rw [(h2 r s' h).1]
    simp [encodeDeleteResult, StatusOK]

end Propagation

/-- C8, witness: when the store cannot be reached, each of the seven handlers
answers 500 with its own message; on a healthy collection `GetAllBooks` does
not answer 500. -/
theorem GetAllBooks_unreachable_store :
    (CreateBook unreachable () ⟨[], [.title (ascii "Dune")]⟩).response
      = ⟨500, .raw "\x7b\"message\": \"Error creating book\"\x7d"⟩
    ∧ (GetAllBooks unreachable () ⟨[], []⟩).response
      = ⟨500, .raw "\x7b\"message\": \"Error fetching books\"\x7d"⟩
    ∧ (GetBookByYear unreachable () (yearRequest (ascii "2024"))).response
      = ⟨500, .raw "\x7b\"message\": \"Error fetching books by year\"\x7d"⟩
    ∧ (GetBookByAuthor unreachable () ⟨[("author", ascii "Herbert")], []⟩).response
      = ⟨500, .raw "\x7b\"message\": \"Error fetching books by author\"\x7d"⟩
    ∧ (GetBook unreachable () (idRequest (ascii "000000000000000000000001") [])).response
      = ⟨500, .raw "\x7b\"message\": \"Error fetching book\"\x7d"⟩
    ∧ (UpdateBook unreachable ()
        (idRequest (ascii "000000000000000000000001") [.title (ascii "Dune")])).response
      = ⟨500, .raw "\x7b\"message\": \"Error updating book\"\x7d"⟩
    ∧ (DeleteBook unreachable () (idRequest (ascii "000000000000000000000001") [])).response
      = ⟨500, .raw "\x7b\"message\": \"Error deleting book\"\x7d"⟩
    ∧ (GetAllBooks mongo.healthy shelf ⟨[], []⟩).response.status ≠ 500 :=
  ⟨(handlers_propagate_store_failures unreachable () ⟨[], [.title (ascii "Dune")]⟩).1.2.1
      (.other "context deadline exceeded") () rfl,
    (handlers_propagate_store_failures unreachable () ⟨[], []⟩).2.1.2.1
      (.other "context deadline exceeded") rfl,
    ((handlers_propagate_store_failures unreachable () (yearRequest (ascii "2024"))).2.2.1
      (time.Date 2024 1 1 0 0 0 0) (by decide)).2.1 (.other "context deadline exceeded") rfl,
    (handlers_propagate_store_failures unreachable ()
      ⟨[("author", ascii "Herbert")], []⟩).2.2.2.1.2.1 (.other "context deadline exceeded") rfl,
    (handlers_propagate_store_failures unreachable ()
      (idRequest (ascii "000000000000000000000001") [])).2.2.2.2.1.2.1
      (.other "context deadline exceeded") rfl,
    (handlers_propagate_store_failures unreachable ()
      (idRequest (ascii "000000000000000000000001") [.title (ascii "Dune")])).2.2.2.2.2.1.2.1
      (.other "context deadline exceeded") () rfl,
    (handlers_propagate_store_failures unreachable ()
      (idRequest (ascii "000000000000000000000001") [])).2.2.2.2.2.2.2.1
      (.other "context deadline exceeded") () rfl,
    (handlers_propagate_store_failures mongo.healthy shelf ⟨[], []⟩).2.1.2.2.2
      ⟨shelf.docs, none⟩ rfl rfl⟩

/-- C5, counterexample: the identifier `xyz` is not 24 hexadecimal characters,
and `GetBook` answers it with status 200 and the one book of the collection. -/
theorem GetBook_answers_200_to_unparsable_id :
    ¬ Hex24 (ascii "xyz")
    ∧ (ObjectIDFromHex (ascii "xyz")).2 = some .invalidHex
    ∧ (GetBook mongo.healthy duneShelf (idRequest (ascii "xyz") [])).response.status ≠ 400
    ∧ (GetBook mongo.healthy duneShelf (idRequest (ascii "xyz") [])).response
        = encodeBook (bson.Unmarshal dune) := by
  decide

theorem GetBook_status {σ : Type} (collection : Collection σ) (s : σ) (request : Request) :
    (GetBook collection s request).response.status = 200
      ∨ (GetBook collection s request).response.status = 500 := by
  obtain ⟨_, h1, h2, _⟩ := GetBook_spec collection s request
  cases hf : collection.FindOne s
    (bson.Marshal { Book.zero with ID := (ObjectIDFromHex (request.param "id")).1 }) with
  | error e => right; rw [h1 e hf]
  | ok d => left; rw [h2 d hf, encodeBook_status]

/-- C5, amended. `GetBook` never answers 400: whatever the `{id}` parameter and
the store, the status is 200 or 500; an `{id}` that is not 24 hexadecimal
characters is not rejected, the lookup is made with the filter the all-zero
identifier gives, the empty document. -/
theorem GetBook_never_answers_400 {σ : Type} (collection : Collection σ) (s : σ)
    (request : Request) :
    ((GetBook collection s request).response.status = 200
      ∨ (GetBook collection s request).response.status = 500)
    ∧ (GetBook collection s request).response.status ≠ 400
    ∧ (¬ Hex24 (request.param "id") →
        (GetBook collection s request).calls = [.FindOne bson.Document.empty]) := by
  have hs := GetBook_status collection s request
  refine ⟨hs, ?_, ?_⟩
  · rcases hs with h | h <;> rw [h] <;> decide
  · intro hn
    rw [(GetBook_spec collection s request).1, ObjectIDFromHex_not_hex _ hn, Marshal_filter]
    simp

theorem captures_exact (lit path : GoString) :
    (⟨lit, none⟩ : mux.Template).captures path = if path = lit then some [] else none := rfl

theorem captures_var (lit path : GoString) (name : String) :
    (⟨lit, some name⟩ : mux.Template).captures path
      = if lit.isPrefixOf path then
          (if (path.drop lit.length).length > 0
              ∧ (path.drop lit.length).all (fun b => b.val != 47) then
            some [(name, path.drop lit.length)] else none)
        else none := rfl

theorem Match_author (v : GoString) (hv : v ≠ []) (hs : ∀ b ∈ v, b.val ≠ 47) :
    mux.Match router "GET" (ascii "/books/author/" ++ v) false
      = .found .GetBookByAuthor [("author", v)] := by
  have e1 : ascii "/books" = [47, 98, 111, 111, 107, 115] := by decide
  have e2 : ascii "/books/" = [47, 98, 111, 111, 107, 115, 47] := by decide
  have e3 : ascii "/books/author/"
      = [47, 98, 111, 111, 107, 115, 47, 97, 117, 116, 104, 111, 114, 47] := by decide
  have e4 : ascii "/books/year/" = [47, 98, 111, 111, 107, 115, 47, 121, 101, 97, 114, 47] := by
    decide
  have hall : v.all (fun b => b.val != 47) = true := by
    rw [List.all_eq_true]
    intro b hb
    simpa using hs b hb
  have hlen : v.length > 0 := List.length_pos.mpr hv
  unfold router
  simp only [e1, e2, e3, e4, mux.Match, captures_exact, captures_var]
  have h47 : ((47 : Fin 256) : Nat) = 47 := rfl
  simp [List.isPrefixOf, hall, hlen, h47]

theorem Match_year (v : GoString) (hv : v ≠ []) (hs : ∀ b ∈ v, b.val ≠ 47) :
    mux.Match router "GET" (ascii "/books/year/" ++ v) false
      = .found .GetBookByYear [("year", v)] := by
  have e1 : ascii "/books" = [47, 98, 111, 111, 107, 115] := by decide
  have e2 : ascii "/books/" = [47, 98, 111, 111, 107, 115, 47] := by decide
  have e3 : ascii "/books/author/"
      = [47, 98, 111, 111, 107, 115, 47, 97, 117, 116, 104, 111, 114, 47] := by decide
  have e4 : ascii "/books/year/" = [47, 98, 111, 111, 107, 115, 47, 121, 101, 97, 114, 47] := by
    decide
  have hall : v.all (fun b => b.val != 47) = true := by
    rw [List.all_eq_true]
    intro b hb
    simpa using hs b hb
  have hlen : v.length > 0 := List.length_pos.mpr hv
  unfold router
  simp only [e1, e2, e3, e4, mux.Match, captures_exact, captures_var]
  have h47 : ((47 : Fin 256) : Nat) = 47 := rfl
  simp [List.isPrefixOf, hall, hlen, h47]

/-- C6, counterexample: `GET /books/author` is dispatched to `GetBook` with
`id = "author"`, and on a collection of one book the answer is 200 with that
book, not 404. -/
theorem GET_books_author_is_dispatched_to_GetBook :
    mux.Match router "GET" (ascii "/books/author") false
      = .found .GetBook [("id", ascii "author")]
    ∧ (ServeHTTP mongo.healthy duneShelf "GET" (ascii "/books/author") []).response.status ≠ 404
    ∧ (ServeHTTP mongo.healthy duneShelf "GET" (ascii "/books/author") []).response
        = encodeBook (bson.Unmarshal dune) := by
  decide

/-- C6, amended. The routes are tried in the order `main` registered them and
the first that matches wins: `/books/{id}` is registered before the author and
year routes and `{id}` matches any one segment, so `GET /books/author` and
`GET /books/year` run `GetBook` with `id = "author"` and `id = "year"` and are
not answered 404; a path
`/books/author/{a}` or `/books/year/{y}` with one more non-empty segment is not
matched by `/books/{id}` and reaches `GetBookByAuthor` or `GetBookByYear` (the
segments `.` and `..` apart, which the router cleans away before matching). -/
theorem routes_match_in_registration_order :
    (∀ (σ : Type) (collection : Collection σ) (s : σ) (body : json.Body),
      ServeHTTP collection s "GET" (ascii "/books/author") body
          = GetBook collection s ⟨[("id", ascii "author")], body⟩
        ∧ (ServeHTTP collection s "GET" (ascii "/books/author") body).response.status ≠ 404)
    ∧ (∀ (σ : Type) (collection : Collection σ) (s : σ) (body : json.Body),
      ServeHTTP collection s "GET" (ascii "/books/year") body
          = GetBook collection s ⟨[("id", ascii "year")], body⟩
        ∧ (ServeHTTP collection s "GET" (ascii "/books/year") body).response.status ≠ 404)
    ∧ (∀ (σ : Type) (collection : Collection σ) (s : σ) (body : json.Body) (a : GoString),
      a ≠ [] → (∀ b ∈ a, b.val ≠ 47) → a ≠ ascii "." → a ≠ ascii ".." →
      ServeHTTP collection s "GET" (ascii "/books/author/" ++ a) body
        = GetBookByAuthor collection s ⟨[("author", a)], body⟩)
    ∧ (∀ (σ : Type) (collection : Collection σ) (s : σ) (body : json.Body) (y : GoString),
      y ≠ [] → (∀ b ∈ y, b.val ≠ 47) → y ≠ ascii "." → y ≠ ascii ".." →
      ServeHTTP collection s "GET" (ascii "/books/year/" ++ y) body
        = GetBookByYear collection s ⟨[("year", y)], body⟩) := by
  have m1 : mux.Match router "GET" (ascii "/books/author") false
      = .found .GetBook [("id", ascii "author")] := by decide
  have m2 : mux.Match router "GET" (ascii "/books/year") false
      = .found .GetBook [("id", ascii "year")] := by decide
  refine ⟨?_, ?_, ?_, ?_⟩
  · intro σ collection s body
    have e : ServeHTTP collection s "GET" (ascii "/books/author") body
        = GetBook collection s ⟨[("id", ascii "author")], body⟩ := by
      unfold ServeHTTP
      rw [m1]
      rfl
    refine ⟨e, ?_⟩
    rw [e]
    rcases GetBook_status collection s ⟨[("id", ascii "author")], body⟩ with h | h <;>
      rw [h] <;> decide
  · intro σ collection s body
    have e : ServeHTTP collection s "GET" (ascii "/books/year") body
        = GetBook collection s ⟨[("id", ascii "year")], body⟩ := by
      unfold ServeHTTP
      rw [m2]
      rfl
    refine ⟨e, ?_⟩
    rw [e]
    rcases GetBook_status collection s ⟨[("id", ascii "year")], body⟩ with h | h <;>
      rw [h] <;> decide
  · intro σ collection s body a ha hs _ _
    unfold ServeHTTP
    rw [Match_author a ha hs]
    rfl
  · intro σ collection s body y hy hs _ _
    unfold ServeHTTP
    rw [Match_year y hy hs]
    rfl

theorem Decode_ID (body : json.Body) (book : Book) :
    (json.Decode book body).ID = (bodyID body).getD book.ID := by
  induction body generalizing book with
  | nil => rfl
  | cons m ms ih =>
    cases m <;> simp only [bodyID, json.Decode] <;> rw [ih]
    cases bodyID ms <;> rfl

theorem Marshal_id (book : Book) :
    (bson.Marshal book)._id = if book.ID = NilObjectID then none else some book.ID := by
  unfold bson.Marshal primitive.ObjectID.IsZero
  by_cases h : book.ID = NilObjectID <;> simp [h]

/-- C7, counterexample: two bodies that differ only in `_id` make `CreateBook`
pass two different documents to the store, and the identifier of the stored
book is the one in the body. -/
theorem CreateBook_keeps_the_id_of_the_body :
    (CreateBook mongo.healthy duneShelf
        ⟨[], [._id (mongo.NewObjectID 7), .title (ascii "Emma")]⟩).calls
      ≠ (CreateBook mongo.healthy duneShelf
        ⟨[], [._id (mongo.NewObjectID 8), .title (ascii "Emma")]⟩).calls
    ∧ (CreateBook mongo.healthy duneShelf
        ⟨[], [._id (mongo.NewObjectID 7), .title (ascii "Emma")]⟩).response
      = encodeInsertOneResult ⟨mongo.NewObjectID 7⟩
    ∧ (CreateBook mongo.healthy duneShelf
        ⟨[], [._id (mongo.NewObjectID 7), .title (ascii "Emma")]⟩).state.docs
      = [dune, { bson.Document.empty with
          _id := some (mongo.NewObjectID 7), title := some (ascii "Emma") }] := by
  decide

/-- C7, amended. `CreateBook` decodes the `_id` of the body into the book and
passes it on: when the body carries a non-zero `_id`, the document handed to the
store's insert has that `_id`, and a healthy store that holds no document with
it stores the book under it and reports it as the inserted identifier; when the
body carries no `_id`, or the all-zero one, the document has no `_id` and the
identifier is the one generated on insert. -/
theorem CreateBook_passes_the_id_of_the_body (request : Request) :
    (∀ id, bodyID request.body = some id → id ≠ NilObjectID →
      (∀ (σ : Type) (collection : Collection σ) (s : σ),
        ∃ document, (CreateBook collection s request).calls = [.InsertOne document]
          ∧ document._id = some id)
      ∧ (∀ s : mongo.Memory, (∀ d ∈ s.docs, d._id ≠ some id) →
        (CreateBook mongo.healthy s request).response = encodeInsertOneResult ⟨id⟩
        ∧ ∃ d ∈ (CreateBook mongo.healthy s request).state.docs, d._id = some id))
    ∧ ((bodyID request.body = none ∨ bodyID request.body = some NilObjectID) →
      ∀ (σ : Type) (collection : Collection σ) (s : σ),
        ∃ document, (CreateBook collection s request).calls = [.InsertOne document]
          ∧ document._id = none) := by
  constructor
  · intro id hid hnz
    have hdoc : (bson.Marshal (json.Decode Book.zero request.body))._id = some id := by
      rw [Marshal_id, Decode_ID, hid]
      simp [hnz]
    constructor
    · intro σ collection s
      exact ⟨_, (CreateBook_spec collection s request).1, hdoc⟩
    · intro s hfresh
      obtain ⟨_, _, h2⟩ := CreateBook_spec mongo.healthy s request
      rcases healthy_InsertOne_docs s (bson.Marshal (json.Decode Book.zero request.body)) with
        ⟨hd, e, he⟩ | ⟨id', hf, hid', hd, hr⟩
      · exfalso
        have hne : ¬ ∃ x ∈ s.docs, x._id = some id := fun ⟨x, hx, hxe⟩ => hfresh x hx hxe
        simp [mongo.healthy, hdoc, hne] at he
      · have hii : id' = id := by
          rcases hid' with h | h
          · rw [hdoc] at h
            cases h
          · rw [hdoc] at h
            injection h with h
            exact h.symm
        subst hii
        have hins : mongo.healthy.InsertOne s (bson.Marshal (json.Decode Book.zero request.body))
            = ((mongo.healthy.InsertOne s
                (bson.Marshal (json.Decode Book.zero request.body))).1, .ok ⟨id'⟩) := by
          rw [← hr]
        have h3 := h2 _ _ hins
        rw [h3]
        refine ⟨rfl, ?_⟩
        show ∃ d ∈ (mongo.healthy.InsertOne s
          (bson.Marshal (json.Decode Book.zero request.body))).1.docs, d._id = some id'
        rw [hd]
        exact ⟨_, List.mem_append_right _ (List.mem_singleton_self _), rfl⟩
  · intro h σ collection s
    refine ⟨_, (CreateBook_spec collection s request).1, ?_⟩
    rw [Marshal_id, Decode_ID]
    rcases h with h | h <;> rw [h]
    · rfl
    · rfl

/-- C9, the code at the failing input: a book stored without a release date is
rendered by `GetBook` with the key `released`, holding the zero time; and a
`Book` value without an identifier is rendered with the key `_id`. -/
theorem GetBook_renders_released_of_book_without_release_date :
    dune.released = none
    ∧ (GetBook mongo.healthy duneShelf
        (idRequest (ascii "000000000000000000000001") [])).response
      = ⟨200, .object [("_id", .objectID (mongo.NewObjectID 1)),
          ("title", .string (ascii "Dune")), ("author", .string (ascii "Herbert")),
          ("released", .time time.Time.zero)]⟩
    ∧ json.MarshalBook Book.zero
      = some [("_id", .objectID NilObjectID), ("released", .time time.Time.zero)] := by
  decide

end BooksAPI
